import Mathlib

/-
Verification of the e-invoices analysis engine: a shallow embedding of the
schema matcher, the date parser, the duplicate detector, the yearly/top-N
aggregation and the missing-date backfill of
src/utils/file_handler.py and src/services/quick_analysis_engine.py,
together with theorems settling the frozen claims about them.

Modelling conventions:
  * a pandas DataFrame is a `Table`: a list of column names plus rows of
    `CellValue`s (null, string, rational number, or calendar date);
  * Python floats are modelled exactly as rationals (no NaN/inf values);
  * external configuration (the parameter workbook) enters as explicit
    parameters: the per-category duplicate-key lists, the date-format list
    and the numeric include/exclude pattern lists.
-/

namespace EInvoices

/-- Cell of a table: missing value, text, number (Python int/float modelled as
an exact rational) or a calendar date. -/
inductive CellValue where
  | null
  | str (s : String)
  | num (q : ℚ)
  | date (d : Int)
  deriving Repr, DecidableEq

/-- Table modelling a pandas DataFrame: column names plus rows of cells.
A well-formed table has every row of the same length as `cols`. -/
structure Table where
  cols : List String
  rows : List (List CellValue)
  deriving Repr, DecidableEq

/-- Empty table, the model of `pd.DataFrame()`. -/
def Table.empty : Table := ⟨[], []⟩

/-- Index of the first occurrence of a column name, as pandas column lookup. -/
def idxOfCol : List String → String → Option Nat
  | [], _ => none
  | c :: cs, d => if c = d then some 0 else (idxOfCol cs d).map (· + 1)

/-- Value of row `i` at column `c` (null when the row or column is absent). -/
def Table.cell (t : Table) (i : Nat) (c : String) : CellValue :=
  match idxOfCol t.cols c with
  | some j => (t.rows.getD i []).getD j .null
  | none => .null

/-- Column assignment `df[c] = vals`: overwrite in place when the column
exists, append a new last column otherwise (pandas `__setitem__`). -/
def Table.setCol (t : Table) (c : String) (vals : List CellValue) : Table :=
  match idxOfCol t.cols c with
  | some j => ⟨t.cols, t.rows.zipWith (fun r v => r.set j v) vals⟩
  | none => ⟨t.cols ++ [c], t.rows.zipWith (fun r v => r ++ [v]) vals⟩

/-- Python `str.upper()` restricted to the Latin-1 letters appearing in the
month catalogue (ASCII plus the accented letters of the configured month
names). -/
def pyToUpperChar (c : Char) : Char :=
  if 'a' ≤ c ∧ c ≤ 'z' then Char.ofNat (c.toNat - 32)
  else if 0xE0 ≤ c.toNat ∧ c.toNat ≤ 0xFE ∧ c.toNat ≠ 0xF7 then Char.ofNat (c.toNat - 32)
  else c

/-- Python `str.upper()` on a whole string. -/
def pyToUpper (s : String) : String := String.mk (s.data.map pyToUpperChar)

/-- Whitespace in the sense of Python `str.strip()`. -/
def isPySpace (c : Char) : Bool :=
  c = ' ' ∨ c = '\t' ∨ c = '\n' ∨ c = '\r' ∨ c = '\x0b' ∨ c = '\x0c'

/-- Python `str.strip()`: drop leading and trailing whitespace. -/
def pyStrip (s : String) : String :=
  String.mk (((s.data.dropWhile isPySpace).reverse.dropWhile isPySpace).reverse)

/-- Python `str(x).upper().strip()`, the header normalisation used by the
schema matcher (cells are modelled as already stringified). -/
def normHeader (s : String) : String := pyStrip (pyToUpper s)

/-- Decide whether `needle` occurs as a contiguous substring of `hay`
(Python `needle in hay`). -/
def listIsInfix [DecidableEq α] (needle : List α) : List α → Bool
  | [] => needle.isEmpty
  | a :: hay => needle.isPrefixOf (a :: hay) || listIsInfix needle hay

/-- Python substring test `needle in hay` on strings. -/
def strContainsSub (hay needle : String) : Bool :=
  listIsInfix needle.data hay.data

/-!  Duplicate detector: `cls_Customfiles_Filetypehandler.fn_check_duplicatedrecords`
(src/utils/file_handler.py lines 630-651).  The per-category duplicate-key
configuration (sheet `Check_duplicates` of the parameter workbook) is passed
in as `dupParams : String → List String`, the column of configured key fields
for each category (already without NaN entries, as after `dropna()`). -/

/-- Resolved duplicate-criteria columns: the configured fields for the
category, stripped, restricted to those present in the record set; when that
restriction is empty the full column list is used
(`[col for col in lst if col in df.columns] or df.columns.tolist()`). -/
def resolve_criteriacolumns (dupParams : String → List String)
    (df : Table) (cat : String) : List String :=
  let lst := (dupParams cat).map pyStrip
  let present := lst.filter (fun c => c ∈ df.cols)
  if present.isEmpty then df.cols else present

/-- Key tuple of a row: its values at the criteria columns, in criteria
order. -/
def rowKey (cols : List String) (crit : List String) (row : List CellValue) :
    List CellValue :=
  crit.map (fun c =>
    match idxOfCol cols c with
    | some j => row.getD j .null
    | none => .null)

/-- Per-row duplicate statuses.  Collapses the three mask assignments of the
source: rows marked by `duplicated(keep='first')` become `IS duplicate`,
further rows marked by `duplicated(keep=False)` become `HAS duplicates`, and
all remaining rows keep `NO duplicates`. -/
def duplicateStatuses (keys : List (List CellValue)) : List CellValue :=
  (List.range keys.length).map (fun i =>
    if (keys.getD i []) ∈ keys.take i then .str "IS duplicate"
    else if 2 ≤ keys.count (keys.getD i []) then .str "HAS duplicates"
    else .str "NO duplicates")

/-- Duplicate detector `fn_check_duplicatedrecords`: returns the empty table
on empty input, otherwise works on a copy of the input and assigns the
`Duplicate Status` column from the resolved criteria columns. -/
def fn_check_duplicatedrecords (dupParams : String → List String)
    (df_dataset : Table) (cat : String) : Table :=
  if df_dataset.rows.isEmpty then Table.empty
  else
    let crit := resolve_criteriacolumns dupParams df_dataset cat
    let keys := df_dataset.rows.map (rowKey df_dataset.cols crit)
    df_dataset.setCol "Duplicate Status" (duplicateStatuses keys)

/-!  Calendar dates.  Python `datetime` values are modelled as proleptic
Gregorian dates (the time-of-day part, always midnight here, is dropped).
Conversion between a date and its day number uses the standard civil-calendar
algorithm, so `datetime(1899, 12, 30) + timedelta(days=n)` is exact where it
is defined; Python's `datetime` is bounded by `MINYEAR = 1` and
`MAXYEAR = 9999`, and an addition landing outside `date(1, 1, 1)` ..
`date(9999, 12, 31)` raises `OverflowError`. -/

/-- Python exceptions the date parser can raise: a `dict` lookup miss and a
`datetime`/`timedelta` arithmetic result out of range. -/
inductive PyError where
  | keyError (k : String)
  | overflowError
  deriving Repr, DecidableEq

/-- Proleptic Gregorian calendar date (models a Python `datetime` at
midnight). -/
structure Date where
  year : Int
  month : Int
  day : Int
  deriving Repr, DecidableEq

/-- Gregorian leap-year test. -/
def isLeapYear (y : Int) : Bool :=
  y % 4 = 0 ∧ (y % 100 ≠ 0 ∨ y % 400 = 0)

/-- Day count of a civil date (days since 1970-01-01, civil-calendar
algorithm). -/
def daysFromCivil (y m d : Int) : Int :=
  let yy := if m ≤ 2 then y - 1 else y
  let era := Int.fdiv yy 400
  let yoe := yy - era * 400
  let mp := if 2 < m then m - 3 else m + 9
  let doy := Int.fdiv (153 * mp + 2) 5 + d - 1
  let doe := yoe * 365 + Int.fdiv yoe 4 - Int.fdiv yoe 100 + doy
  era * 146097 + doe - 719468

/-- Civil date of a day count (inverse of `daysFromCivil`). -/
def civilFromDays (z0 : Int) : Date :=
  let z := z0 + 719468
  let era := Int.fdiv z 146097
  let doe := z - era * 146097
  let yoe := Int.fdiv (doe - Int.fdiv doe 1460 + Int.fdiv doe 36524 - Int.fdiv doe 146096) 365
  let y := yoe + era * 400
  let doy := doe - (365 * yoe + Int.fdiv yoe 4 - Int.fdiv yoe 100)
  let mp := Int.fdiv (5 * doy + 2) 153
  let d := doy - Int.fdiv (153 * mp + 2) 5 + 1
  let m := if mp < 10 then mp + 3 else mp - 9
  ⟨if m ≤ 2 then y + 1 else y, m, d⟩

/-- Spreadsheet serial date: `datetime(1899, 12, 30) + timedelta(days=n)`.
The addition raises `OverflowError` when the resulting day falls before
`date(1, 1, 1)` or after `date(9999, 12, 31)` (for a magnitude of `n` beyond
`timedelta`'s own bound the `timedelta` constructor raises the same
exception, so the single range check is observationally exact). -/
def datetimeOfSerial (n : Int) : Except PyError Date :=
  if daysFromCivil 1 1 1 ≤ daysFromCivil 1899 12 30 + n ∧
      daysFromCivil 1899 12 30 + n ≤ daysFromCivil 9999 12 31 then
    .ok (civilFromDays (daysFromCivil 1899 12 30 + n))
  else .error .overflowError

/-- Length of a month in the given year. -/
def daysInMonth (y m : Int) : Int :=
  if m = 2 then (if isLeapYear y then 29 else 28)
  else if m = 4 ∨ m = 6 ∨ m = 9 ∨ m = 11 then 30 else 31

/-- Validity of a date as enforced by Python's `datetime` constructor. -/
def validDate (dt : Date) : Bool :=
  1 ≤ dt.year ∧ dt.year ≤ 9999 ∧ 1 ≤ dt.month ∧ dt.month ≤ 12 ∧
    1 ≤ dt.day ∧ dt.day ≤ daysInMonth dt.year dt.month

/-!  Date formats and a model of `datetime.strptime`.  The configured format
strings (sheet `Dates formats` of the parameter workbook, external to the
code) are modelled as token lists over the directives the configuration's
patterns use: literal characters, `%d`, `%m` and `%Y`.  As in Python, `%d`
and `%m` accept one or two digits, `%Y` exactly four, the whole string must
be consumed, and missing fields default to 1900-01-01. -/

/-- One token of a `strptime` format string. -/
inductive FmtTok where
  | lit (c : Char)
  | dayNum
  | monthNum
  | yearNum
  deriving Repr, DecidableEq

/-- Read one or two leading decimal digits. -/
def takeDigits2 : List Char → Option (Int × List Char)
  | [] => none
  | [c] => if c.isDigit then some (((c.toNat : Int) - 48), []) else none
  | c1 :: c2 :: rest =>
    if c1.isDigit then
      if c2.isDigit then
        some (((c1.toNat : Int) - 48) * 10 + ((c2.toNat : Int) - 48), rest)
      else some (((c1.toNat : Int) - 48), c2 :: rest)
    else none

/-- Read exactly four leading decimal digits. -/
def takeDigits4 : List Char → Option (Int × List Char)
  | c1 :: c2 :: c3 :: c4 :: rest =>
    if c1.isDigit ∧ c2.isDigit ∧ c3.isDigit ∧ c4.isDigit then
      some (((c1.toNat : Int) - 48) * 1000 + ((c2.toNat : Int) - 48) * 100 +
        ((c3.toNat : Int) - 48) * 10 + ((c4.toNat : Int) - 48), rest)
    else none
  | _ => none

/-- Format-directed scan collecting optional year/month/day fields. -/
def strptimeGo : List FmtTok → List Char → Option Int × Option Int × Option Int →
    Option (Option Int × Option Int × Option Int)
  | [], [], acc => some acc
  | [], _ :: _, _ => none
  | .lit c :: toks, d :: cs, acc => if c = d then strptimeGo toks cs acc else none
  | .lit _ :: _, [], _ => none
  | .dayNum :: toks, cs, (y, m, _) =>
    (takeDigits2 cs).bind fun p => strptimeGo toks p.2 (y, m, some p.1)
  | .monthNum :: toks, cs, (y, _, d) =>
    (takeDigits2 cs).bind fun p => strptimeGo toks p.2 (y, some p.1, d)
  | .yearNum :: toks, cs, (_, m, d) =>
    (takeDigits4 cs).bind fun p => strptimeGo toks p.2 (some p.1, m, d)

/-- Model of `datetime.strptime(s, fmt)`, returning `none` where Python
raises `ValueError`. -/
def strptime (s : String) (fmt : List FmtTok) : Option Date :=
  match strptimeGo fmt s.data (none, none, none) with
  | some (y, m, d) =>
    let dt : Date := ⟨y.getD 1900, m.getD 1, d.getD 1⟩
    if validDate dt then some dt else none
  | none => none

/-!  Month-name substitution: `dic_month_map`, `month_pattern` and
`fn_replace_months` (src/utils/file_handler.py lines 1229-1249).  The regex
`\b(key1|key2|...)\b` with `re.IGNORECASE` is modelled by a left-to-right
scan that, at every position preceded by a non-word character (or the string
start), tries the dictionary keys in insertion order, case-insensitively,
and requires a non-word character (or the string end) after the match.  The
replacement looks the matched text up by its uppercase form, and a missing
key is a Python `KeyError`. -/

/-- Decidable equality of `Except` results, for evaluating the parser on
concrete inputs. -/
instance instDecEqExcept [DecidableEq ε] [DecidableEq α] :
    DecidableEq (Except ε α) := fun a b =>
  match a, b with
  | .ok x, .ok y =>
    if h : x = y then .isTrue (by rw [h])
    else .isFalse (fun hc => h (by injection hc))
  | .error x, .error y =>
    if h : x = y then .isTrue (by rw [h])
    else .isFalse (fun hc => h (by injection hc))
  | .ok _, .error _ => .isFalse (fun hc => by injection hc)
  | .error _, .ok _ => .isFalse (fun hc => by injection hc)

/-- Word character in the sense of the regex `\b` boundary (`\w`). -/
def isWordChar (c : Char) : Bool :=
  c.isAlphanum || c = '_' || decide (127 < c.toNat)

/-- The multi-language month dictionary, in source insertion order. -/
def dic_month_map : List (String × String) := [
  ("Jan", "01"), ("January", "01"), ("JANUARY", "01"), ("JAN", "01"), ("MUTARAMA", "01"),
  ("Feb", "02"), ("Februar", "02"), ("February", "02"), ("Février", "02"), ("Fév", "02"),
  ("Fev", "02"), ("Febrero", "02"), ("FEB", "02"), ("FEBRUARY", "02"), ("FÉVRIER", "02"),
  ("FÉV", "02"), ("FEV", "02"), ("FEBRERO", "02"), ("FEBRUAR", "02"), ("GASHYANTARE", "02"),
  ("Mar", "03"), ("March", "03"), ("März", "03"), ("Mars", "03"), ("Marzo", "03"),
  ("MAR", "03"), ("MARCH", "03"), ("MÄRZ", "03"), ("MARS", "03"), ("MARZO", "03"),
  ("WERURWE", "03"),
  ("Apr", "04"), ("April", "04"), ("Avril", "04"), ("Abril", "04"), ("APR", "04"),
  ("APRIL", "04"), ("AVRIL", "04"), ("ABRIL", "04"), ("MATA", "04"),
  ("May", "05"), ("Mai", "05"), ("Mayo", "05"), ("MAY", "05"), ("MAI", "05"),
  ("MAYO", "05"), ("GICURASI", "05"),
  ("Jun", "06"), ("June", "06"), ("Juni", "06"), ("Juin", "06"), ("Junio", "06"),
  ("JUN", "06"), ("JUNE", "06"), ("JUNI", "06"), ("JUIN", "06"), ("JUNIO", "06"),
  ("KAMENA", "06"),
  ("Jul", "07"), ("July", "07"), ("Juli", "07"), ("Juillet", "07"), ("Julio", "07"),
  ("JUL", "07"), ("JULY", "07"), ("JULI", "07"), ("JUILLET", "07"), ("JULIO", "07"),
  ("NYAKANGA", "07"),
  ("Aug", "08"), ("August", "08"), ("Août", "08"), ("Agosto", "08"), ("Aou", "08"),
  ("AUG", "08"), ("AUGUST", "08"), ("AOÛT", "08"), ("AGOSTO", "08"), ("KANAMA", "08"),
  ("Sep", "09"), ("September", "09"), ("Septembre", "09"), ("Sept", "09"),
  ("Setiembre", "09"), ("Septiembre", "09"), ("SEP", "09"), ("SEPTEMBER", "09"),
  ("SEPTEMBRE", "09"), ("SEPT", "09"), ("SETIEMBRE", "09"), ("SEPTIEMBRE", "09"),
  ("NZERI", "09"), ("NZELI", "09"),
  ("Oct", "10"), ("October", "10"), ("Oktober", "10"), ("Octobre", "10"),
  ("Octubre", "10"), ("OCT", "10"), ("OCTOBER", "10"), ("OKTOBER", "10"),
  ("OCTOBRE", "10"), ("OCTUBRE", "10"), ("UKWAKIRA", "10"),
  ("Nov", "11"), ("November", "11"), ("Novembre", "11"), ("Noviembre", "11"),
  ("NOV", "11"), ("NOVEMBER", "11"), ("NOVEMBRE", "11"), ("NOVIEMBRE", "11"),
  ("UGUSHYINGO", "11"),
  ("Dec", "12"), ("December", "12"), ("Dezember", "12"), ("Décembre", "12"),
  ("Diciembre", "12"), ("Déc", "12"), ("Dez", "12"), ("DIC", "12"), ("DEC", "12"),
  ("DECEMBER", "12"), ("DEZEMBER", "12"), ("DÉCEMBRE", "12"), ("DÉC", "12"),
  ("DEZ", "12"), ("DICIEMBRE", "12"), ("UKUBOZA", "12")]

/-- Exact-key dictionary lookup (Python `dict[key]`, `none` = `KeyError`). -/
def lookupDict (m : List (String × String)) (k : String) : Option String :=
  (m.find? (fun p => p.1 = k)).map Prod.snd

/-- Try the month keys in dictionary order at the head of `cs`: a key matches
when it is a case-insensitive prefix and the character after it (if any) is
a non-word character, as the trailing regex boundary requires.  Returns the
matched key and its length. -/
def monthKeyMatchAt (keys : List String) (cs : List Char) : Option (String × Nat) :=
  keys.findSome? fun k =>
    let kc := k.data.map pyToUpperChar
    if kc ≠ [] ∧ (cs.take kc.length).map pyToUpperChar = kc ∧
        (kc.length < cs.length → ¬ isWordChar (cs.getD kc.length ' ')) then
      some (k, kc.length)
    else none

/-- Scan of `month_pattern.sub`: `prevWord` records whether the previous
character of the original string is a word character (month keys are purely
alphabetic, so after a replacement the previous character is always a word
character).  A positive `skip` consumes a character already covered by the
previous match.  A matched key is looked up by its uppercase form; a missing
key aborts the whole substitution with a `KeyError`, as `re.sub`'s
replacement callback does. -/
def replaceMonthsGo (m : List (String × String)) :
    Nat → Bool → List Char → Except PyError (List Char)
  | _, _, [] => .ok []
  | Nat.succ k, _, _ :: cs => replaceMonthsGo m k true cs
  | 0, prevWord, c :: cs =>
    match (if prevWord then none else monthKeyMatchAt (m.map Prod.fst) (c :: cs)) with
    | some (k, len) =>
      match lookupDict m (pyToUpper k) with
      | some rep =>
        match replaceMonthsGo m (len - 1) true cs with
        | .ok rest => .ok (rep.data ++ rest)
        | .error e => .error e
      | none => .error (.keyError (pyToUpper k))
    | none =>
      match replaceMonthsGo m 0 (isWordChar c) cs with
      | .ok rest => .ok (c :: rest)
      | .error e => .error e

/-- Month-name substitution `fn_replace_months` of the source. -/
def fn_replace_months (m : List (String × String)) (s : String) :
    Except PyError String :=
  match replaceMonthsGo m 0 false s.data with
  | .ok cs => .ok (String.mk cs)
  | .error e => .error e

/-!  The multi-format date parser `fn_parse_dates_multipleformats`
(src/utils/file_handler.py lines 1252-1285). -/

/-- Raw cell value as handed to the date parser. -/
inductive RawValue where
  | vNull
  | vDate (d : Date)
  | vInt (n : Int)
  | vFloat (q : ℚ)
  | vStr (s : String)
  deriving Repr, DecidableEq

/-- Python `s.isdigit()` on ASCII content. -/
def pyIsDigitStr (s : String) : Bool :=
  ¬ s.data.isEmpty ∧ s.data.all Char.isDigit

/-- Integer value of an all-digits string. -/
def digitStrVal (s : String) : Int :=
  s.data.foldl (fun a c => a * 10 + ((c.toNat : Int) - 48)) 0

/-- Python `int(q)` on a rational: truncation toward zero. -/
def pyTruncRat (q : ℚ) : Int :=
  if 0 ≤ q.num then Int.fdiv q.num q.den else -(Int.fdiv (-q.num) q.den)

/-- The guard `isinstance(x, (int, float)) or (isinstance(x, str) and
x.isdigit())` together with `int(float(x))`: the integer the serial-date
stage would use, or `none` when the value does not enter that stage. -/
def serialCandidate : RawValue → Option Int
  | .vInt n => some n
  | .vFloat q => some (pyTruncRat q)
  | .vStr s => if pyIsDigitStr s then some (digitStrVal s) else none
  | _ => none

/-- The null guard `pd.isna(x) or x in [None, '', 'NaN', 'NaT']`. -/
def pyIsNaLike : RawValue → Bool
  | .vNull => true
  | .vStr s => s = "" ∨ s = "NaN" ∨ s = "NaT"
  | _ => false

/-- Month substitution followed by the format loop: the stage every
non-datetime, non-null value reaches as a string.  On no parse the (possibly
month-substituted, possibly stringified) current value is returned. -/
def parseFormatsStage (fmts : List (List FmtTok)) (s : String) :
    Except PyError RawValue :=
  match fn_replace_months dic_month_map s with
  | .error e => .error e
  | .ok sR =>
    match fmts.findSome? (fun f => strptime (pyStrip sR) f) with
    | some d => .ok (.vDate d)
    | none => .ok (.vStr sR)

/-- The multi-format date parser `fn_parse_dates_multipleformats`: datetime
values and null-likes are returned as-is; integers, floats and digit strings
below the spreadsheet epoch boundary 2958466 become serial dates (the
unguarded `datetime(1899, 12, 30) + timedelta(days=n)` propagating its
`OverflowError` for days before Python's minimum date); everything else goes
through month substitution and the configured format list, the current
string being returned when no format parses. -/
def fn_parse_dates_multipleformats (fmts : List (List FmtTok)) (v : RawValue) :
    Except PyError RawValue :=
  match v with
  | .vDate _ => .ok v
  | _ =>
    if pyIsNaLike v then .ok v
    else
      match serialCandidate v with
      | some n =>
        if n < 2958466 then
          match datetimeOfSerial n with
          | .ok d => .ok (.vDate d)
          | .error e => .error e
        else parseFormatsStage fmts (toString n)
      | none =>
        match v with
        | .vStr s => parseFormatsStage fmts s
        | _ => .ok v

/-!  Schema matcher: `fn_find_matching_category`
(src/utils/file_handler.py lines 483-508).  The catalog (sheet `FileHeaders`:
one column of raw header cells per category) is a list of
(category, header cells) entries in workbook column order; the sheet is a
grid of already-stringified cells.  The `FindapHeaders` sheet enters as
`newh : String → List String`. -/

/-- Subset test on header lists viewed as sets (`set(a).issubset(set(b))`). -/
def subsetOfHeaders (a b : List String) : Bool :=
  a.all (fun x => decide (x ∈ b))

/-- Set equality of header lists (`set(a) == set(b)`). -/
def setEqHeaders (a b : List String) : Bool :=
  subsetOfHeaders a b && subsetOfHeaders b a

/-- Normalised non-empty catalogue headers of an entry:
`df[df[ft] != '']` then `str(col).upper().strip()`. -/
def entryHeaders (heads : List String) : List String :=
  (heads.filter (fun h => h ≠ "")).map normHeader

/-- Normalised cells of sheet row `r`:
`[str(cell).upper().strip() for cell in df.iloc[r]]`. -/
def rowCells (sheet : List (List String)) (r : Nat) : List String :=
  (sheet.getD r []).map normHeader

/-- Result quintuple of the matcher:
(filetype, header row, current headers, header positions, new headers).  A
missing header row models Python `None`. -/
structure MatchResult where
  filetype : String
  headerRow : Option Nat
  currentHeaders : List String
  headerIdx : List Nat
  newHeaders : List String
  deriving Repr, DecidableEq

/-- Successful return value of the matcher at row `r` for entry
`(ft, heads)`. -/
def matchResultAt (newh : String → List String) (sheet : List (List String))
    (ft : String) (heads : List String) (r : Nat) : MatchResult :=
  let cur := entryHeaders heads
  let row := rowCells sheet r
  { filetype := ft, headerRow := some r,
    currentHeaders := cur,
    headerIdx := (List.range row.length).filter (fun i => decide (row.getD i "" ∈ cur)),
    newHeaders := (newh ft).filter (fun h => h ≠ "") }

/-- One pass of the matcher: rows `0..maxIter` in ascending order, catalog
entries in order within each row, first entry passing `test` wins. -/
def matcherPass (cat : List (String × List String)) (newh : String → List String)
    (sheet : List (List String)) (maxIter : Nat)
    (test : List String → List String → Bool) : Option MatchResult :=
  (List.range maxIter).findSome? fun r =>
    cat.findSome? fun e =>
      if test (entryHeaders e.2) (rowCells sheet r) then
        some (matchResultAt newh sheet e.1 e.2 r)
      else none

/-- The matcher `fn_find_matching_category`: an exact-equality pass over all
candidate rows, then a subset pass, then the UNKNOWN result with header row
`None`. -/
def fn_find_matching_category (cat : List (String × List String))
    (newh : String → List String) (sheet : List (List String))
    (maxIterations : Nat := 25) : MatchResult :=
  match matcherPass cat newh sheet (min sheet.length maxIterations) setEqHeaders with
  | some res => res
  | none =>
    match matcherPass cat newh sheet (min sheet.length maxIterations) subsetOfHeaders with
    | some res => res
    | none => ⟨"UNKNOWN", none, [], [], []⟩

/-- Candidate (row, catalog entry) pairs in row-ascending then
catalog-entry order, the scan order named by the specification. -/
def specScanPairs (cat : List (String × List String)) (maxIter : Nat) :
    List (Nat × (String × List String)) :=
  (List.range maxIter).flatMap fun r => cat.map fun e => (r, e)

/-- Result built from a chosen (row, entry) pair. -/
def specResultAt (newh : String → List String) (sheet : List (List String))
    (p : Nat × (String × List String)) : MatchResult :=
  matchResultAt newh sheet p.2.1 p.2.2 p.1

/-- Reference matcher following the claim word for word: first (row, entry)
pair with equal header sets, otherwise first pair with a subset match,
otherwise UNKNOWN with header row index 0 and empty lists.  Used only to be
compared against `fn_find_matching_category`. -/
def spec_match_per_claim (cat : List (String × List String))
    (newh : String → List String) (sheet : List (List String))
    (maxIterations : Nat := 25) : MatchResult :=
  match (specScanPairs cat (min sheet.length maxIterations)).find?
      (fun p => setEqHeaders (entryHeaders p.2.2) (rowCells sheet p.1)) with
  | some p => specResultAt newh sheet p
  | none =>
    match (specScanPairs cat (min sheet.length maxIterations)).find?
        (fun p => subsetOfHeaders (entryHeaders p.2.2) (rowCells sheet p.1)) with
    | some p => specResultAt newh sheet p
    | none => ⟨"UNKNOWN", some 0, [], [], []⟩

/-- Amended reference matcher: as `spec_match_per_claim` but the no-match
result carries no header row index (Python `None`), as the code returns. -/
def spec_match_amended (cat : List (String × List String))
    (newh : String → List String) (sheet : List (List String))
    (maxIterations : Nat := 25) : MatchResult :=
  match (specScanPairs cat (min sheet.length maxIterations)).find?
      (fun p => setEqHeaders (entryHeaders p.2.2) (rowCells sheet p.1)) with
  | some p => specResultAt newh sheet p
  | none =>
    match (specScanPairs cat (min sheet.length maxIterations)).find?
        (fun p => subsetOfHeaders (entryHeaders p.2.2) (rowCells sheet p.1)) with
    | some p => specResultAt newh sheet p
    | none => ⟨"UNKNOWN", none, [], [], []⟩

/-!  Generic helpers shared by the aggregation embeddings: cell access by
column name, order-preserving deduplication and insertion sort (models for
the order pandas `groupby`, `unique` and `sort_values` produce). -/

/-- Value of a row at a named column. -/
def cellAtRow (cols : List String) (c : String) (r : List CellValue) : CellValue :=
  match idxOfCol cols c with
  | some j => r.getD j .null
  | none => .null

/-- Deduplication scan: drops elements already seen, in encounter order. -/
def dedupKeepFirstGo [DecidableEq α] (seen : List α) : List α → List α
  | [] => []
  | x :: xs =>
    if x ∈ seen then dedupKeepFirstGo seen xs
    else x :: dedupKeepFirstGo (x :: seen) xs

/-- Deduplication keeping the first occurrence of each element, preserving
encounter order (pandas `Index.unique`). -/
def dedupKeepFirst [DecidableEq α] (l : List α) : List α :=
  dedupKeepFirstGo [] l

/-- Ordered insertion for the insertion sort below. -/
def insertOrdered (le : α → α → Bool) (x : α) : List α → List α
  | [] => [x]
  | y :: ys => if le x y then x :: y :: ys else y :: insertOrdered le x ys

/-- Stable insertion sort by a boolean order. -/
def sortWithLe (le : α → α → Bool) (l : List α) : List α :=
  l.foldr (insertOrdered le) []

/-- Constructor rank of a cell, fixing an arbitrary order between the value
kinds for sorting (group keys compared in the claims are homogeneous). -/
def cellRank : CellValue → Nat
  | .num _ => 0
  | .str _ => 1
  | .date _ => 2
  | .null => 3

/-- Total boolean order on cells: numbers by value, strings
lexicographically, dates by day number, mixed kinds by rank. -/
def cellLeb (a b : CellValue) : Bool :=
  match a, b with
  | .num p, .num q => decide (p ≤ q)
  | .str s, .str t => !(compare s t = .gt)
  | .date d, .date e => decide (d ≤ e)
  | x, y => decide (cellRank x ≤ cellRank y)

/-- Values of a whole column, in row order. -/
def colValues (df : Table) (c : String) : List CellValue :=
  df.rows.map (cellAtRow df.cols c)

/-- Rows whose value at column `c` equals `v` (`df[df[c] == v]`). -/
def rowsWhereCol (df : Table) (c : String) (v : CellValue) : Table :=
  ⟨df.cols, df.rows.filter (fun r => cellAtRow df.cols c r = v)⟩

/-- Numeric reading of a cell; missing values contribute 0, as pandas sums
skip NaN. -/
def numValOf : CellValue → ℚ
  | .num q => q
  | _ => 0

/-!  Numeric column selection: `get_numeric_columns`
(src/utils/file_handler.py lines 98-130) and the configuration accessor
`ComparisonRulesManager.get_numeric_field_config` (lines 272-296), whose
include list the analysis engine discards
(`_, self.exclude_patterns = ComparisonRulesManager.get_numeric_field_config()`,
src/services/quick_analysis_engine.py line 47). -/

/-- Numeric dtype of a column: present and every cell a number or missing
(an all-numeric pandas column, NaN included, is a numeric dtype). -/
def is_numeric_dtype (df : Table) (c : String) : Bool :=
  match idxOfCol df.cols c with
  | some j => df.rows.all (fun r =>
      match r.getD j .null with
      | .num _ => true
      | .null => true
      | _ => false)
  | none => false

/-- Numeric columns whose (uppercased) name contains no (uppercased)
exclude pattern as a substring. -/
def get_numeric_columns (df : Table) (excludePatterns : List String) : List String :=
  df.cols.filter (fun c =>
    is_numeric_dtype df c &&
    excludePatterns.all (fun p => !strContainsSub (pyToUpper c) (pyToUpper p)))

/-- Default include patterns of `get_numeric_field_config` (used when the
NUMERIC_FIELDS_CONFIG sheet is absent). -/
def default_include_patterns : List String :=
  ["AMOUNT", "VAT", "TOTAL", "TAXABLE", "TAX", "GROSS", "NET"]

/-- Default exclude patterns of `get_numeric_field_config`. -/
def default_exclude_patterns : List String :=
  ["ID", "LINE NUMBER", "INVOICE NUMBER", "RECEIPT NUMBER",
   "YEAR", "MONTH", "DAY", "LINE_NUMBER"]

/-- Configuration accessor `get_numeric_field_config`: the
(ACTION, FIELD_PATTERN) rows of the NUMERIC_FIELDS_CONFIG sheet, or the
defaults when that sheet is empty; returns (include, exclude). -/
def get_numeric_field_config (cfg : List (String × String)) :
    List String × List String :=
  if cfg.isEmpty then (default_include_patterns, default_exclude_patterns)
  else ((cfg.filter (fun p => p.1 = "INCLUDE")).map Prod.snd,
        (cfg.filter (fun p => p.1 = "EXCLUDE")).map Prod.snd)

/-- The pattern list the QuickAnalysisEngine keeps from the configuration:
only the exclude half; the include half is discarded. -/
def engine_exclude_patterns (cfg : List (String × String)) : List String :=
  (get_numeric_field_config cfg).2

/-!  Date display and ranges: `format_date_for_display` and `get_date_range`
(src/utils/file_handler.py lines 132-190). -/

/-- English month abbreviation (`%b`). -/
def monthAbbrev (m : Int) : String :=
  if m = 1 then "Jan" else if m = 2 then "Feb" else if m = 3 then "Mar"
  else if m = 4 then "Apr" else if m = 5 then "May" else if m = 6 then "Jun"
  else if m = 7 then "Jul" else if m = 8 then "Aug" else if m = 9 then "Sep"
  else if m = 10 then "Oct" else if m = 11 then "Nov" else if m = 12 then "Dec"
  else ""

/-- Two-digit zero padding (`%d`). -/
def pad2 (n : Int) : String :=
  if n < 10 then "0" ++ toString n else toString n

/-- Date formatted `dd-mmm-yyyy` (`format_date_for_display` on a valid
date). -/
def format_date_for_display (d : Int) : String :=
  let dt := civilFromDays d
  pad2 dt.day ++ "-" ++ monthAbbrev dt.month ++ "-" ++ toString dt.year

/-- Day number of a date cell. -/
def cellDate? : CellValue → Option Int
  | .date d => some d
  | _ => none

/-- Case-insensitive column search (`col.upper().strip() == target`). -/
def findColCI (cols : List String) (target : String) : Option String :=
  cols.find? (fun c => pyStrip (pyToUpper c) = target)

/-- Date range of the TRANSACTION DATE column, formatted, with "N/A" when
the column or valid dates are absent (`get_date_range`). -/
def get_date_range (df : Table) : String × String :=
  match findColCI df.cols "TRANSACTION DATE" with
  | none => ("N/A", "N/A")
  | some c =>
    match df.rows.filterMap (fun r => cellDate? (cellAtRow df.cols c r)) with
    | [] => ("N/A", "N/A")
    | d :: rest =>
      (format_date_for_display (rest.foldl min d),
       format_date_for_display (rest.foldl max d))

/-!  Yearly summary: `QuickAnalysisEngine._generate_yearly_summary`
(src/services/quick_analysis_engine.py lines 227-258). -/

/-- Sum of the numeric readings of a column over a table
(`df.groupby(...)[c].sum()` for one group). -/
def sumColOver (df : Table) (c : String) : ℚ :=
  ((colValues df c).map numValOf).sum

/-- Yearly summary: groups the rows by the `YEAR` column (non-null keys in
ascending order, as pandas `groupby` sorts), sums every selected numeric
column per year and attaches the formatted date range of each year's rows;
result columns are YEAR, Date Range, then the numeric columns. -/
def generate_yearly_summary (excludePatterns : List String) (df : Table) : Table :=
  if "YEAR" ∉ df.cols then Table.empty
  else
    let numeric := get_numeric_columns df excludePatterns
    if numeric.isEmpty then Table.empty
    else
      let years := sortWithLe cellLeb
        (dedupKeepFirst ((colValues df "YEAR").filter (fun v => v ≠ .null)))
      ⟨["YEAR", "Date Range"] ++ numeric,
       years.map (fun y =>
         let sub := rowsWhereCol df "YEAR" y
         let dr := get_date_range sub
         [y, .str (dr.1 ++ " to " ++ dr.2)] ++
           numeric.map (fun c => .num (sumColOver sub c)))⟩

/-!  Top-N concentration analysis: `QuickAnalysisEngine._generate_top_analysis`
(src/services/quick_analysis_engine.py lines 260-362). -/

/-- One row of the Top-N table; `topN` models the string `Top {n}` and
`percentage` the numeric share before display formatting. -/
structure TopRow where
  year : CellValue
  topN : Nat
  totalAmount : ℚ
  percentage : ℚ
  deriving Repr, DecidableEq

/-- Result of the top analysis: the emitted rows plus the partner
terminology; `none` models the `{}` returned on any of the guards. -/
structure TopResult where
  table : List TopRow
  partnerType : String
  deriving Repr, DecidableEq

/-- Clean-record test on a Duplicate Status cell:
`str.upper() in ['NO DUPLICATES', 'HAS DUPLICATES']` (non-strings are NaN
under `.str` and fail `isin`). -/
def isCleanCell : CellValue → Bool
  | .str s => decide (pyToUpper s ∈ ["NO DUPLICATES", "HAS DUPLICATES"])
  | _ => false

/-- First column whose normalised name is DUPLICATE STATUS. -/
def find_duplicate_status_col (cols : List String) : Option String :=
  findColCI cols "DUPLICATE STATUS"

/-- Restriction to clean records. -/
def filterClean (df : Table) (dupCol : String) : Table :=
  ⟨df.cols, df.rows.filter (fun r => isCleanCell (cellAtRow df.cols dupCol r))⟩

/-- Partner column and terminology resolution: first column containing
SUPPLIER NAME (Clients for SALES/REVENUE groups, else Suppliers), BUYER
NAME (Clients) or CLIENT/CUSTOMER NAME (Clients). -/
def resolvePartner (cols : List String) (group_name : String) :
    Option (String × String) :=
  let groupUpper := pyToUpper group_name
  cols.findSome? (fun c =>
    let cu := pyToUpper c
    if strContainsSub cu "SUPPLIER NAME" then
      some (c, if strContainsSub groupUpper "SALES" || strContainsSub groupUpper "REVENUE"
               then "Clients" else "Suppliers")
    else if strContainsSub cu "BUYER NAME" then some (c, "Clients")
    else if strContainsSub cu "CLIENT NAME" || strContainsSub cu "CUSTOMER NAME" then
      some (c, "Clients")
    else none)

/-- Synthetic `Total_Amount` of a row: sum of its numeric columns. -/
def totalAmountOfRow (cols : List String) (numeric : List String)
    (r : List CellValue) : ℚ :=
  (numeric.map (fun c => numValOf (cellAtRow cols c r))).sum

/-- The (YEAR, partner) group key of a row; `none` when either is missing,
as pandas `groupby` drops null keys. -/
def ypOfRow (cols : List String) (partnerCol : String) (r : List CellValue) :
    Option (CellValue × CellValue) :=
  let y := cellAtRow cols "YEAR" r
  let p := cellAtRow cols partnerCol r
  if y = .null ∨ p = .null then none else some (y, p)

/-- Lexicographic order on (YEAR, partner) keys. -/
def pairLeb (a b : CellValue × CellValue) : Bool :=
  if a.1 = b.1 then cellLeb a.2 b.2 else cellLeb a.1 b.1

/-- The record set the analysis works on: clean rows when a Duplicate
Status column exists, the full set otherwise (the `df_clean` local of the
source). -/
def topCleanOf (df : Table) : Table :=
  match find_duplicate_status_col df.cols with
  | some c => filterClean df c
  | none => df

/-- Group keys of `partner_yearly`: distinct (YEAR, partner) pairs of the
clean rows with non-null components, sorted as pandas `groupby` sorts its
keys. -/
def topKeys (dfc : Table) (pc : String) : List (CellValue × CellValue) :=
  sortWithLe pairLeb (dedupKeepFirst (dfc.rows.filterMap (ypOfRow dfc.cols pc)))

/-- The `Total_Amount` sum of one (YEAR, partner) group. -/
def topPairSum (dfc : Table) (pc : String) (numeric : List String)
    (k : CellValue × CellValue) : ℚ :=
  ((dfc.rows.filter (fun r => ypOfRow dfc.cols pc r = some k)).map
    (totalAmountOfRow dfc.cols numeric)).sum

/-- The `year_data` rows of one year: its (YEAR, partner) groups sorted by
descending total (ties in unspecified pandas order; a fixed insertion sort
here). -/
def topYearData (dfc : Table) (pc : String) (numeric : List String)
    (y : CellValue) : List (CellValue × CellValue) :=
  sortWithLe (fun a b => decide (topPairSum dfc pc numeric b ≤ topPairSum dfc pc numeric a))
    ((topKeys dfc pc).filter (fun k => k.1 = y))

/-- Rows emitted for one year: a Top n entry for each n in {5, 10, 20} the
year has at least n groups for, with the top-n amount and its share of the
year total. -/
def topYearRows (dfc : Table) (pc : String) (numeric : List String)
    (y : CellValue) : List TopRow :=
  ([5, 10, 20] : List Nat).filterMap (fun n =>
    if n ≤ (topYearData dfc pc numeric y).length then
      some ⟨y, n, (((topYearData dfc pc numeric y).take n).map
          (topPairSum dfc pc numeric)).sum,
        if 0 < ((topYearData dfc pc numeric y).map (topPairSum dfc pc numeric)).sum then
          (((topYearData dfc pc numeric y).take n).map (topPairSum dfc pc numeric)).sum
            / ((topYearData dfc pc numeric y).map (topPairSum dfc pc numeric)).sum * 100
        else 0⟩
    else none)

/-- The whole Top-N table: years ascending, each contributing its Top

5/10/20 rows. -/
def topTable (dfc : Table) (pc : String) (numeric : List String) : List TopRow :=
  (sortWithLe cellLeb (dedupKeepFirst ((topKeys dfc pc).map Prod.fst))).flatMap
    (topYearRows dfc pc numeric)

/-- Top-N analysis on clean records
(`QuickAnalysisEngine._generate_top_analysis`): filters to clean rows when
a Duplicate Status column exists, resolves numeric columns and the partner
column, sums `Total_Amount` per (YEAR, partner), and for each year
(ascending) emits Top 5/10/20 rows whenever the year has at least that many
distinct partners. -/
def generate_top_analysis (excludePatterns : List String) (df : Table)
    (group_name : String) : Option TopResult :=
  if "YEAR" ∉ df.cols then none
  else if (topCleanOf df).rows.isEmpty then none
  else if (get_numeric_columns (topCleanOf df) excludePatterns).isEmpty then none
  else
    match resolvePartner (topCleanOf df).cols group_name with
    | none => none
    | some pc =>
      some ⟨topTable (topCleanOf df) pc.1
        (get_numeric_columns (topCleanOf df) excludePatterns), pc.2⟩

/-!  Missing-date backfill: `fn_insert_missingdates`
(src/utils/file_handler.py lines 990-1019). -/

/-- Row deduplication by key, keeping the first row of each key
(`drop_duplicates(subset=..., keep='first')`). -/
def dedupByKeyGo (key : List CellValue → List CellValue)
    (seen : List (List CellValue)) : List (List CellValue) → List (List CellValue)
  | [] => []
  | r :: rs =>
    if key r ∈ seen then dedupByKeyGo key seen rs
    else r :: dedupByKeyGo key (key r :: seen) rs

/-- Deduplication of rows on the named key columns. -/
def dedupByKey (cols keyCols : List String) (rows : List (List CellValue)) :
    List (List CellValue) :=
  dedupByKeyGo (fun r => keyCols.map (fun c => cellAtRow cols c r)) [] rows

/-- Cartesian product of per-column value lists, leftmost level outermost
(`pd.MultiIndex.from_product`). -/
def cartesianProd : List (List CellValue) → List (List CellValue)
  | [] => [[]]
  | l :: ls => l.flatMap (fun x => (cartesianProd ls).map (fun cb => x :: cb))

/-- Row-order forward fill of the data columns: a null cell takes the value
of the same column in the previous row (`DataFrame.ffill`). -/
def ffillGo (acc : List CellValue) : List (List CellValue) → List (List CellValue)
  | [] => []
  | r :: rs =>
    let r1 := acc.zipWith (fun a v => if v = .null then a else v) r
    r1 :: ffillGo r1 rs

/-- Forward fill starting from an all-null carry of the given width. -/
def ffillRows (width : Nat) (rows : List (List CellValue)) : List (List CellValue) :=
  ffillGo (List.replicate width CellValue.null) rows

/-- The deduplicated rows of the backfill
(`drop_duplicates(subset=[date]+others, keep='first')`). -/
def midDedupRows (df : Table) (dateCol : String) (otherCols : List String) :
    List (List CellValue) :=
  dedupByKey df.cols (dateCol :: otherCols) df.rows

/-- The data columns of the backfill: everything outside the index key
(`set_index([date]+others)` removes the key columns from the data). -/
def midDataCols (df : Table) (dateCol : String) (otherCols : List String) :
    List String :=
  df.cols.filter (fun c => decide (c ∉ dateCol :: otherCols))

/-- The observed date values of the deduplicated rows. -/
def midDateVals (df : Table) (dateCol : String) (otherCols : List String) :
    List Int :=
  (midDedupRows df dateCol otherCols).filterMap
    (fun r => cellDate? (cellAtRow df.cols dateCol r))

/-- The global minimum observed date (`index.get_level_values(date).min()`),
taken over all rows, not per group. -/
def midMin (df : Table) (dateCol : String) (otherCols : List String) : Int :=
  match midDateVals df dateCol otherCols with
  | [] => 0
  | d0 :: drest => drest.foldl min d0

/-- The global maximum observed date. -/
def midMax (df : Table) (dateCol : String) (otherCols : List String) : Int :=
  match midDateVals df dateCol otherCols with
  | [] => 0
  | d0 :: drest => drest.foldl max d0

/-- The single full daily range from the global minimum to the global
maximum observed date (`pd.date_range(start=min, end=max, freq='D')`). -/
def midRange (df : Table) (dateCol : String) (otherCols : List String) :
    List Int :=
  (List.range ((midMax df dateCol otherCols) - (midMin df dateCol otherCols) + 1).toNat).map
    (fun (i : Nat) => midMin df dateCol otherCols + (i : Int))

/-- The observed values of each grouping column, in order of appearance
(`index.get_level_values(col).unique()`). -/
def midUniques (df : Table) (dateCol : String) (otherCols : List String) :
    List (List CellValue) :=
  otherCols.map (fun c =>
    dedupKeepFirst ((midDedupRows df dateCol otherCols).map (cellAtRow df.cols c)))

/-- All grouping-value combinations (`pd.MultiIndex.from_product`, group
levels). -/
def midCombos (df : Table) (dateCol : String) (otherCols : List String) :
    List (List CellValue) :=
  cartesianProd (midUniques df dateCol otherCols)

/-- The full reindex key list: every day of the global range paired with
every grouping combination, date level outermost. -/
def midAllKeys (df : Table) (dateCol : String) (otherCols : List String) :
    List (Int × List CellValue) :=
  (midRange df dateCol otherCols).flatMap
    (fun d => (midCombos df dateCol otherCols).map (fun cb => (d, cb)))

/-- Data cells of the original row carrying a reindex key, if any. -/
def midLookup (df : Table) (dateCol : String) (otherCols : List String)
    (k : Int × List CellValue) : Option (List CellValue) :=
  ((midDedupRows df dateCol otherCols).find? (fun r =>
    decide (cellAtRow df.cols dateCol r = .date k.1 ∧
      otherCols.map (fun c => cellAtRow df.cols c r) = k.2))).map
    (fun r => (midDataCols df dateCol otherCols).map (fun c => cellAtRow df.cols c r))

/-- The reindexed data rows before forward filling: the original row's data
cells where the key existed, an all-null row otherwise. -/
def midRaw (df : Table) (dateCol : String) (otherCols : List String) :
    List (List CellValue) :=
  (midAllKeys df dateCol otherCols).map (fun k =>
    (midLookup df dateCol otherCols k).getD
      ((midDataCols df dateCol otherCols).map (fun _ => CellValue.null)))

/-- Missing-date backfill `fn_insert_missingdates`: deduplicates on
(date, grouping) keys, builds the single daily range from the global minimum
to the global maximum observed date, reindexes over the cartesian product of
that range with each grouping column's observed values (date level
outermost), forward fills the data columns across the whole reindexed order,
and resets the key columns in front.  The empty-table branch stands for the
unreachable case of no valid date. -/
def fn_insert_missingdates (df : Table) (dateCol : String)
    (otherCols : List String) : Table :=
  match midDateVals df dateCol otherCols with
  | [] => Table.empty
  | _ :: _ =>
    ⟨(dateCol :: otherCols) ++ midDataCols df dateCol otherCols,
     ((midAllKeys df dateCol otherCols).zip
        (ffillRows (midDataCols df dateCol otherCols).length
          (midRaw df dateCol otherCols))).map
       (fun p => (CellValue.date p.1.1 :: p.1.2) ++ p.2)⟩

/-!  Sign exchange: `fn_exchange_negativesign`
(src/utils/file_handler.py lines 1022-1029). -/

/-- Sign exchange: on each row whose `fromCol` number is negative, set
`fromCol` to its absolute value and `toCol` to minus the absolute value of
its own original value (simultaneous tuple assignment, both right-hand
sides read from the original row); other rows are unchanged.  Rows whose
`fromCol` cell is not a number are left unchanged (Python would raise on
the comparison; the claims only concern numeric rows). -/
def fn_exchange_negativesign (df : Table) (fromCol toCol : String) : Table :=
  ⟨df.cols, df.rows.map (fun r =>
    match cellAtRow df.cols fromCol r with
    | .num x =>
      if x < 0 then
        let r1 := match idxOfCol df.cols fromCol with
          | some j => r.set j (.num (-x))
          | none => r
        match cellAtRow df.cols toCol r with
        | .num y =>
          match idxOfCol df.cols toCol with
          | some j => r1.set j (.num (-|y|))
          | none => r1
        | _ => r1
      else r
    | _ => r)⟩

/-!  Statement abbreviations and concrete example tables used by the claim
theorems and their witnesses. -/

/-- Key tuples of all rows under the resolved duplicate criteria. -/
def dupKeysOf (dupParams : String → List String) (df : Table) (cat : String) :
    List (List CellValue) :=
  df.rows.map (rowKey df.cols (resolve_criteriacolumns dupParams df cat))

/-- Duplicate Status cell of row `i` after the detector ran. -/
def dupStatusCell (dupParams : String → List String) (df : Table) (cat : String)
    (i : Nat) : CellValue :=
  (fn_check_duplicatedrecords dupParams df cat).cell i "Duplicate Status"

/-- Example record set: two equal rows and one distinct row. -/
def exDupTable : Table :=
  ⟨["A"], [[.str "x"], [.str "x"], [.str "y"]]⟩

/-- Example record set already carrying a Duplicate Status column. -/
def exDupStatusTable : Table :=
  ⟨["A", "Duplicate Status"], [[.str "x", .str "keepme"]]⟩

/-- Example record set with a YEAR column and a numeric column matching no
configured include pattern. -/
def exYearTable : Table :=
  ⟨["YEAR", "QUANTITY"], [[.num 2021, .num 7], [.num 2020, .num 5]]⟩

/-- Example data set for the missing-date backfill: two groups with
disjoint date ranges. -/
def exBackfillTable : Table :=
  ⟨["D", "G", "X"],
   [[.date 0, .str "A", .num 1], [.date 1, .str "A", .num 2],
    [.date 2, .str "B", .num 3], [.date 3, .str "B", .num 4]]⟩

/-- Example record set for the Top-N analysis: clean and duplicate rows
with a supplier column. -/
def exTopTable : Table :=
  ⟨["YEAR", "SUPPLIER NAME", "AMOUNT", "Duplicate Status"],
   [[.num 2021, .str "P1", .num 10, .str "NO duplicates"],
    [.num 2021, .str "P2", .num 20, .str "IS duplicate"],
    [.num 2021, .str "P3", .num 30, .str "HAS duplicates"]]⟩

/-!  Helper lemmas on lists, used throughout the claim proofs. -/

theorem idxOfCol_eq_none_iff (cols : List String) (c : String) :
    idxOfCol cols c = none ↔ c ∉ cols := by
  induction cols with
  | nil => simp [idxOfCol]
  | cons a cs ih =>
    by_cases h : a = c
    · subst h
      simp [idxOfCol]
    · rw [List.mem_cons]
      rw [idxOfCol, if_neg h, Option.map_eq_none', ih]
      constructor
      · intro hn hor
        rcases hor with h1 | h1
        · exact h h1.symm
        · exact hn h1
      · intro hn hm
        exact hn (Or.inr hm)

theorem idxOfCol_some_lt (cols : List String) (c : String) (j : Nat)
    (h : idxOfCol cols c = some j) : j < cols.length := by
  induction cols generalizing j with
  | nil => simp [idxOfCol] at h
  | cons a cs ih =>
    by_cases hac : a = c
    · rw [idxOfCol, if_pos hac] at h
      injection h with h
      simp only [List.length_cons]
      omega
    · rw [idxOfCol, if_neg hac] at h
      rcases ho : idxOfCol cs c with _ | k
      · rw [ho] at h
        simp at h
      · rw [ho] at h
        simp only [Option.map_some'] at h
        injection h with h
        have := ih k ho
        simp only [List.length_cons]
        omega

theorem idxOfCol_some_getD (cols : List String) (c : String) (j : Nat)
    (h : idxOfCol cols c = some j) : cols.getD j "" = c := by
  induction cols generalizing j with
  | nil => simp [idxOfCol] at h
  | cons a cs ih =>
    by_cases hac : a = c
    · rw [idxOfCol, if_pos hac] at h
      injection h with h
      subst h
      simpa [List.getD] using hac
    · rw [idxOfCol, if_neg hac] at h
      rcases ho : idxOfCol cs c with _ | k
      · rw [ho] at h
        simp at h
      · rw [ho] at h
        simp only [Option.map_some'] at h
        injection h with h
        subst h
        simpa [List.getD] using ih k ho

theorem idxOfCol_append_self (cols : List String) (c : String)
    (h : idxOfCol cols c = none) : idxOfCol (cols ++ [c]) c = some cols.length := by
  induction cols with
  | nil => simp [idxOfCol]
  | cons a cs ih =>
    by_cases hac : a = c
    · simp [idxOfCol, hac] at h
    · simp [idxOfCol, hac] at h ⊢
      simp [ih h]

theorem idxOfCol_append_of_some (cols l : List String) (c : String) (j : Nat)
    (h : idxOfCol cols c = some j) : idxOfCol (cols ++ l) c = some j := by
  induction cols generalizing j with
  | nil => simp [idxOfCol] at h
  | cons a cs ih =>
    by_cases hac : a = c
    · simp [idxOfCol, hac] at h ⊢
      exact h
    · simp [idxOfCol, hac] at h ⊢
      obtain ⟨k, hk, rfl⟩ := h
      exact ⟨k, ih k hk, rfl⟩

theorem getD_map (f : α → β) (l : List α) (i : Nat) (d : α)
    (h : i < l.length) : (l.map f).getD i (f d) = f (l.getD i d) := by
  induction l generalizing i with
  | nil => simp at h
  | cons a as ih =>
    cases i with
    | zero => simp [List.getD]
    | succ k =>
      simp only [List.length_cons] at h
      simpa [List.getD] using ih k (by omega)

theorem getD_set_self (l : List α) (j : Nat) (v d : α) (h : j < l.length) :
    (l.set j v).getD j d = v := by
  induction l generalizing j with
  | nil => simp at h
  | cons a as ih =>
    cases j with
    | zero => simp [List.getD]
    | succ k =>
      simp only [List.length_cons] at h
      simpa [List.getD] using ih k (by omega)

theorem getD_set_ne (l : List α) (j k : Nat) (v d : α) (h : j ≠ k) :
    (l.set j v).getD k d = l.getD k d := by
  induction l generalizing j k with
  | nil => simp [List.getD]
  | cons a as ih =>
    cases j with
    | zero =>
      cases k with
      | zero => exact absurd rfl h
      | succ m => simp [List.getD]
    | succ j0 =>
      cases k with
      | zero => simp [List.getD]
      | succ m => simpa [List.getD] using ih j0 m (by omega)

theorem getD_append_left (l₁ l₂ : List α) (j : Nat) (d : α) (h : j < l₁.length) :
    (l₁ ++ l₂).getD j d = l₁.getD j d := by
  induction l₁ generalizing j with
  | nil => simp at h
  | cons a as ih =>
    cases j with
    | zero => simp [List.getD]
    | succ k =>
      simp only [List.length_cons] at h
      simpa [List.getD] using ih k (by omega)

theorem getD_append_length (l : List α) (v d : α) :
    (l ++ [v]).getD l.length d = v := by
  induction l with
  | nil => simp [List.getD]
  | cons a as ih => simpa [List.getD] using ih

theorem getD_zipWith (f : α → β → γ) (as : List α) (bs : List β) (i : Nat)
    (da : α) (db : β) (dc : γ) (ha : i < as.length) (hb : i < bs.length) :
    (List.zipWith f as bs).getD i dc = f (as.getD i da) (bs.getD i db) := by
  induction as generalizing bs i with
  | nil => simp at ha
  | cons a as0 ih =>
    cases bs with
    | nil => simp at hb
    | cons b bs0 =>
      cases i with
      | zero => simp [List.getD]
      | succ k =>
        simp only [List.length_cons] at ha hb
        simpa [List.getD] using ih bs0 k (by omega) (by omega)

theorem getD_map_lt (f : α → β) (l : List α) (i : Nat) (da : α) (db : β)
    (h : i < l.length) : (l.map f).getD i db = f (l.getD i da) := by
  induction l generalizing i with
  | nil => simp at h
  | cons a as ih =>
    cases i with
    | zero => simp [List.getD]
    | succ k =>
      simp only [List.length_cons] at h
      simpa [List.getD] using ih k (by omega)

theorem getD_mem (l : List α) (i : Nat) (d : α) (h : i < l.length) :
    l.getD i d ∈ l := by
  induction l generalizing i with
  | nil => simp at h
  | cons a as ih =>
    cases i with
    | zero => simp [List.getD]
    | succ k =>
      simp only [List.length_cons] at h
      simpa [List.getD] using Or.inr (ih k (by omega))

theorem getD_range_map (f : Nat → α) (n i : Nat) (d : α) (h : i < n) :
    ((List.range n).map f).getD i d = f i := by
  induction n with
  | zero => omega
  | succ m ih =>
    rw [List.range_succ, List.map_append]
    rcases Nat.lt_or_ge i m with hi | hi
    · rw [getD_append_left _ _ i d (by simpa using hi)]
      exact ih hi
    · have him : i = m := by omega
      subst him
      have hl : ((List.range i).map f).length = i := by simp
      have := getD_append_length ((List.range i).map f) (f i) d
      rwa [hl] at this

theorem mem_take_iff_getD (l : List α) (i : Nat) (x d : α) (hi : i ≤ l.length) :
    x ∈ l.take i ↔ ∃ j, j < i ∧ l.getD j d = x := by
  induction l generalizing i with
  | nil =>
    have : i = 0 := by simpa using hi
    subst this
    simp
  | cons a as ih =>
    cases i with
    | zero => simp
    | succ k =>
      simp only [List.length_cons] at hi
      constructor
      · intro hmem
        rcases List.mem_cons.mp (by simpa [List.take] using hmem) with h | h
        · exact ⟨0, by omega, by simp [List.getD, h.symm]⟩
        · obtain ⟨j, hj, hx⟩ := (ih k (by omega)).mp h
          exact ⟨j + 1, by omega, by simpa [List.getD] using hx⟩
      · rintro ⟨j, hj, hx⟩
        cases j with
        | zero =>
          simp only [List.getD] at hx
          simp [List.take, ← hx, List.getD]
        | succ m =>
          have : x ∈ as.take k :=
            (ih k (by omega)).mpr ⟨m, by omega, by simpa [List.getD] using hx⟩
          simp [List.take, this]

theorem getD_drop_zero (l : List α) (i : Nat) (d : α) (h : i < l.length) :
    (l.drop i).getD 0 d = l.getD i d := by
  induction l generalizing i with
  | nil => simp at h
  | cons a as ih =>
    cases i with
    | zero => simp [List.getD]
    | succ k =>
      simp only [List.length_cons] at h
      simpa [List.getD] using ih k (by omega)

theorem two_le_count_of_earlier [BEq α] [LawfulBEq α] (keys : List α) (i j : Nat)
    (d : α) (hj : j < i) (hi : i < keys.length)
    (heq : keys.getD j d = keys.getD i d) :
    2 ≤ keys.count (keys.getD i d) := by
  have htd : keys.take i ++ keys.drop i = keys := List.take_append_drop i keys
  have h1 : keys.getD i d ∈ keys.take i :=
    (mem_take_iff_getD keys i _ d (by omega)).mpr ⟨j, hj, heq⟩
  have h2 : keys.getD i d ∈ keys.drop i := by
    have hlen2 : 0 < (keys.drop i).length := by
      simp only [List.length_drop]
      omega
    have := getD_mem (keys.drop i) 0 d hlen2
    rwa [getD_drop_zero keys i d hi] at this
  have hc1 : 1 ≤ (keys.take i).count (keys.getD i d) := List.one_le_count_iff.mpr h1
  have hc2 : 1 ≤ (keys.drop i).count (keys.getD i d) := List.one_le_count_iff.mpr h2
  calc 2 ≤ (keys.take i).count (keys.getD i d) + (keys.drop i).count (keys.getD i d) := by
        omega
    _ = (keys.take i ++ keys.drop i).count (keys.getD i d) := (List.count_append _ _ _).symm
    _ = keys.count (keys.getD i d) := by rw [htd]

/-!  Table access lemmas. -/

theorem Table.cell_def (t : Table) (i : Nat) (c : String) (j : Nat)
    (h : idxOfCol t.cols c = some j) :
    t.cell i c = (t.rows.getD i []).getD j .null := by
  unfold Table.cell
  rw [h]

theorem Table.setCol_of_none (t : Table) (c : String) (vals : List CellValue)
    (h : idxOfCol t.cols c = none) :
    t.setCol c vals = ⟨t.cols ++ [c], t.rows.zipWith (fun r v => r ++ [v]) vals⟩ := by
  unfold Table.setCol
  rw [h]

theorem Table.setCol_of_some (t : Table) (c : String) (vals : List CellValue)
    (j : Nat) (h : idxOfCol t.cols c = some j) :
    t.setCol c vals = ⟨t.cols, t.rows.zipWith (fun r v => r.set j v) vals⟩ := by
  unfold Table.setCol
  rw [h]

theorem setCol_cols (t : Table) (c : String) (vals : List CellValue) :
    (t.setCol c vals).cols = if c ∈ t.cols then t.cols else t.cols ++ [c] := by
  rcases h : idxOfCol t.cols c with _ | j
  · rw [Table.setCol_of_none t c vals h]
    rw [if_neg ((idxOfCol_eq_none_iff _ _).mp h)]
  · rw [Table.setCol_of_some t c vals j h]
    have hmem : c ∈ t.cols := by
      by_contra hc
      have hn := (idxOfCol_eq_none_iff t.cols c).mpr hc
      rw [hn] at h
      exact Option.noConfusion h
    rw [if_pos hmem]

theorem setCol_rows_length (t : Table) (c : String) (vals : List CellValue)
    (hlen : vals.length = t.rows.length) :
    (t.setCol c vals).rows.length = t.rows.length := by
  rcases h : idxOfCol t.cols c with _ | j
  · rw [Table.setCol_of_none t c vals h]
    simp [hlen]
  · rw [Table.setCol_of_some t c vals j h]
    simp [hlen]

theorem cell_setCol_self (t : Table) (c : String) (vals : List CellValue) (i : Nat)
    (hwf : ∀ r ∈ t.rows, r.length = t.cols.length)
    (hlen : vals.length = t.rows.length) (hi : i < t.rows.length) :
    (t.setCol c vals).cell i c = vals.getD i .null := by
  have hrl : (t.rows.getD i []).length = t.cols.length :=
    hwf _ (getD_mem t.rows i [] hi)
  rcases h : idxOfCol t.cols c with _ | j
  · rw [Table.setCol_of_none t c vals h]
    rw [Table.cell_def ⟨t.cols ++ [c], t.rows.zipWith (fun r v => r ++ [v]) vals⟩
      i c t.cols.length (idxOfCol_append_self t.cols c h)]
    rw [getD_zipWith (fun r v => r ++ [v]) t.rows vals i [] CellValue.null []
      hi (by omega)]
    rw [← hrl]
    exact getD_append_length _ _ _
  · rw [Table.setCol_of_some t c vals j h]
    rw [Table.cell_def ⟨t.cols, t.rows.zipWith (fun r v => r.set j v) vals⟩
      i c j h]
    rw [getD_zipWith (fun r v => r.set j v) t.rows vals i [] CellValue.null []
      hi (by omega)]
    apply getD_set_self
    rw [hrl]
    exact idxOfCol_some_lt _ _ _ h

theorem cell_setCol_other (t : Table) (c c0 : String) (vals : List CellValue)
    (i : Nat) (hwf : ∀ r ∈ t.rows, r.length = t.cols.length)
    (hi : i < t.rows.length) (hv : i < vals.length)
    (hne : c0 ≠ c) (hc0 : c0 ∈ t.cols) :
    (t.setCol c vals).cell i c0 = t.cell i c0 := by
  have hrl : (t.rows.getD i []).length = t.cols.length :=
    hwf _ (getD_mem t.rows i [] hi)
  obtain ⟨j0, hj0⟩ : ∃ j0, idxOfCol t.cols c0 = some j0 := by
    rcases ho : idxOfCol t.cols c0 with _ | k
    · exact absurd ((idxOfCol_eq_none_iff _ _).mp ho) (by simpa using hc0)
    · exact ⟨k, rfl⟩
  have hj0lt : j0 < t.cols.length := idxOfCol_some_lt _ _ _ hj0
  rcases h : idxOfCol t.cols c with _ | j
  · rw [Table.setCol_of_none t c vals h]
    rw [Table.cell_def ⟨t.cols ++ [c], t.rows.zipWith (fun r v => r ++ [v]) vals⟩
      i c0 j0 (idxOfCol_append_of_some t.cols [c] c0 j0 hj0)]
    rw [getD_zipWith (fun r v => r ++ [v]) t.rows vals i [] CellValue.null []
      hi hv]
    rw [getD_append_left _ _ j0 _ (by omega)]
    rw [Table.cell_def t i c0 j0 hj0]
  · have hjj : j ≠ j0 := by
      intro hcontra
      subst hcontra
      have h1 := idxOfCol_some_getD t.cols c j h
      have h2 := idxOfCol_some_getD t.cols c0 j hj0
      exact hne (h2 ▸ h1 ▸ rfl)
    rw [Table.setCol_of_some t c vals j h]
    rw [Table.cell_def ⟨t.cols, t.rows.zipWith (fun r v => r.set j v) vals⟩
      i c0 j0 hj0]
    rw [getD_zipWith (fun r v => r.set j v) t.rows vals i [] CellValue.null []
      hi hv]
    rw [getD_set_ne _ j j0 _ _ hjj]
    rw [Table.cell_def t i c0 j0 hj0]

theorem fn_check_of_nonempty (dupParams : String → List String) (df : Table)
    (cat : String) (hne : df.rows ≠ []) :
    fn_check_duplicatedrecords dupParams df cat =
      df.setCol "Duplicate Status" (duplicateStatuses (dupKeysOf dupParams df cat)) := by
  unfold fn_check_duplicatedrecords dupKeysOf
  rw [if_neg (by simpa [List.isEmpty_iff] using hne)]

theorem duplicateStatuses_length (keys : List (List CellValue)) :
    (duplicateStatuses keys).length = keys.length := by
  simp [duplicateStatuses]

/-!  Claims C3 and C4: the multi-format date parser.  The day count of
Python's minimum date `date(1, 1, 1)` is `-719162`, that of the serial epoch
`date(1899, 12, 30)` is `-25569` and that of the maximum date
`date(9999, 12, 31)` is `2932896`: a serial `n` is in `datetime` range iff
`-693594 < n` and `n ≤ 2958465`, so the code's guard `n < 2958466` exactly
protects the upper bound and nothing protects the lower one. -/

theorem daysFromCivil_pymin : daysFromCivil 1 1 1 = -719162 := by decide

theorem daysFromCivil_epoch : daysFromCivil 1899 12 30 = -25569 := by decide

theorem daysFromCivil_pymax : daysFromCivil 9999 12 31 = 2932896 := by decide

theorem datetimeOfSerial_ok (n : Int) (hlo : -693594 < n) (hhi : n < 2958466) :
    datetimeOfSerial n =
      .ok (civilFromDays (daysFromCivil 1899 12 30 + n)) := by
  unfold datetimeOfSerial
  rw [if_pos]
  rw [daysFromCivil_pymin, daysFromCivil_epoch, daysFromCivil_pymax]
  omega

theorem datetimeOfSerial_overflow (n : Int) (hlo : n ≤ -693594) :
    datetimeOfSerial n = .error .overflowError := by
  unfold datetimeOfSerial
  rw [if_neg]
  rw [daysFromCivil_pymin, daysFromCivil_epoch, daysFromCivil_pymax]
  omega

theorem parse_serial_of_ok (fmts : List (List FmtTok)) (v : RawValue)
    (n : Int) (d : Date) (hv : serialCandidate v = some n)
    (hn : n < 2958466) (hser : datetimeOfSerial n = .ok d) :
    fn_parse_dates_multipleformats fmts v = .ok (.vDate d) := by
  cases v with
  | vNull => simp [serialCandidate] at hv
  | vDate d2 => simp [serialCandidate] at hv
  | vInt k =>
    simp only [serialCandidate, Option.some.injEq] at hv
    subst hv
    simp [fn_parse_dates_multipleformats, pyIsNaLike, serialCandidate, hn,
      hser]
  | vFloat q =>
    simp only [serialCandidate, Option.some.injEq] at hv
    subst hv
    simp [fn_parse_dates_multipleformats, pyIsNaLike, serialCandidate, hn,
      hser]
  | vStr s =>
    simp only [serialCandidate] at hv
    by_cases hd : pyIsDigitStr s = true
    · rw [if_pos hd] at hv
      have h1 : ¬ s = "" := by
        intro h
        subst h
        revert hd
        decide
      have h2 : ¬ s = "NaN" := by
        intro h
        subst h
        revert hd
        decide
      have h3 : ¬ s = "NaT" := by
        intro h
        subst h
        revert hd
        decide
      simp only [Option.some.injEq] at hv
      subst hv
      simp [fn_parse_dates_multipleformats, pyIsNaLike, serialCandidate, hd,
        h1, h2, h3, hn, hser]
    · rw [if_neg hd] at hv
      simp at hv

theorem parse_serial_of_error (fmts : List (List FmtTok)) (v : RawValue)
    (n : Int) (e : PyError) (hv : serialCandidate v = some n)
    (hn : n < 2958466) (hser : datetimeOfSerial n = .error e) :
    fn_parse_dates_multipleformats fmts v = .error e := by
  cases v with
  | vNull => simp [serialCandidate] at hv
  | vDate d2 => simp [serialCandidate] at hv
  | vInt k =>
    simp only [serialCandidate, Option.some.injEq] at hv
    subst hv
    simp [fn_parse_dates_multipleformats, pyIsNaLike, serialCandidate, hn,
      hser]
  | vFloat q =>
    simp only [serialCandidate, Option.some.injEq] at hv
    subst hv
    simp [fn_parse_dates_multipleformats, pyIsNaLike, serialCandidate, hn,
      hser]
  | vStr s =>
    simp only [serialCandidate] at hv
    by_cases hd : pyIsDigitStr s = true
    · rw [if_pos hd] at hv
      have h1 : ¬ s = "" := by
        intro h
        subst h
        revert hd
        decide
      have h2 : ¬ s = "NaN" := by
        intro h
        subst h
        revert hd
        decide
      have h3 : ¬ s = "NaT" := by
        intro h
        subst h
        revert hd
        decide
      simp only [Option.some.injEq] at hv
      subst hv
      simp [fn_parse_dates_multipleformats, pyIsNaLike, serialCandidate, hd,
        h1, h2, h3, hn, hser]
    · rw [if_neg hd] at hv
      simp at hv

/-- Claim C3 counterexample: the integer serial value -693594 is below the
spreadsheet epoch boundary 2958466, yet the parser does not return the date
1899-12-30 plus that many days: `datetime(1899, 12, 30) +
timedelta(days=-693594)` falls one day before Python's minimum date
`date(1, 1, 1)` and raises `OverflowError`. -/
theorem C3_counterexample :
    (-693594 : Int) < 2958466 ∧
      fn_parse_dates_multipleformats [] (.vInt (-693594)) =
        .error .overflowError := by
  constructor
  · decide
  · decide

/-- Claim C3 (amended): for every input to the date parser that is an
integer, a float, or an integer-like digit string whose integer value is
below the spreadsheet epoch boundary 2958466, the parser returns the date
1899-12-30 plus that many days when that value is also above -693594 (so
the resulting date is at or after Python's minimum date 0001-01-01), and
raises `OverflowError` when it is at or below -693594 — in either case
independently of the configured format list; serial value 44197 parses to
2021-01-01 (see the witness). -/
theorem C3_serial_dates_amended (fmts : List (List FmtTok)) (v : RawValue)
    (n : Int) (hv : serialCandidate v = some n) (hn : n < 2958466) :
    (-693594 < n →
      fn_parse_dates_multipleformats fmts v =
        .ok (.vDate (civilFromDays (daysFromCivil 1899 12 30 + n)))) ∧
    (n ≤ -693594 →
      fn_parse_dates_multipleformats fmts v = .error .overflowError) := by
  constructor
  · intro hlo
    exact parse_serial_of_ok fmts v n _ hv hn (datetimeOfSerial_ok n hlo hn)
  · intro hlo
    exact parse_serial_of_error fmts v n _ hv hn
      (datetimeOfSerial_overflow n hlo)

/-- Witness for C3 (amended): serial value 44197 is below the boundary,
above -693594, and parses to 2021-01-01 with an empty format list. -/
theorem C3_serial_dates_amended_witness :
    serialCandidate (.vInt 44197) = some 44197 ∧ (44197 : Int) < 2958466 ∧
      (-693594 : Int) < 44197 ∧
      fn_parse_dates_multipleformats [] (.vInt 44197) =
        .ok (.vDate ⟨2021, 1, 1⟩) := by
  refine ⟨rfl, by decide, by decide, ?_⟩
  have h := (C3_serial_dates_amended [] (.vInt 44197) 44197 rfl
    (by decide)).1 (by decide)
  rw [h]
  decide

/-- Claim C4 (code bug): the parser is claimed never to raise, but on the
input string `15 aou 2022` the month regex matches the key `Aou`
case-insensitively while `dic_month_map` lacks the uppercase key `AOU`, so
the replacement callback raises `KeyError('AOU')`, whatever the configured
format list.  (The serial-date stage does not apply and the null guard does
not fire, so the error is reached on every configuration.) -/
theorem C4_parser_raises_keyerror (fmts : List (List FmtTok)) :
    fn_parse_dates_multipleformats fmts (.vStr "15 aou 2022") =
      .error (.keyError "AOU") := by
  have h : fn_replace_months dic_month_map "15 aou 2022" =
      .error (.keyError "AOU") := by decide
  have hd : pyIsDigitStr "15 aou 2022" = false := by decide
  simp [fn_parse_dates_multipleformats, pyIsNaLike, serialCandidate, hd,
    parseFormatsStage, h]

/-!  Claims C1, C5 and C10: the duplicate detector. -/

/-- Claim C1: after the detector runs, each row's Duplicate Status is
determined by its resolved key tuple: the only row of a key group of size 1
is NO duplicates; in a group of size greater than 1 the first row in input
order is HAS duplicates and every later row of the group IS duplicate; and
every row carries exactly one of the three statuses. -/
theorem C1_duplicate_status_partition (dupParams : String → List String)
    (df : Table) (cat : String) (i : Nat)
    (hwf : ∀ r ∈ df.rows, r.length = df.cols.length)
    (hi : i < df.rows.length) :
    ((dupKeysOf dupParams df cat).count ((dupKeysOf dupParams df cat).getD i []) = 1 →
      dupStatusCell dupParams df cat i = .str "NO duplicates")
    ∧ (2 ≤ (dupKeysOf dupParams df cat).count ((dupKeysOf dupParams df cat).getD i []) →
        ((∀ j, j < i →
            (dupKeysOf dupParams df cat).getD j [] ≠ (dupKeysOf dupParams df cat).getD i []) →
          dupStatusCell dupParams df cat i = .str "HAS duplicates")
        ∧ ((∃ j, j < i ∧
            (dupKeysOf dupParams df cat).getD j [] = (dupKeysOf dupParams df cat).getD i []) →
          dupStatusCell dupParams df cat i = .str "IS duplicate"))
    ∧ (dupStatusCell dupParams df cat i = .str "NO duplicates" ∨
       dupStatusCell dupParams df cat i = .str "HAS duplicates" ∨
       dupStatusCell dupParams df cat i = .str "IS duplicate") := by
  have hne : df.rows ≠ [] := by
    intro h
    rw [h] at hi
    simp at hi
  have hkl : (dupKeysOf dupParams df cat).length = df.rows.length := by
    simp [dupKeysOf]
  have hstatus : dupStatusCell dupParams df cat i =
      (if (dupKeysOf dupParams df cat).getD i [] ∈ (dupKeysOf dupParams df cat).take i
       then CellValue.str "IS duplicate"
       else if 2 ≤ (dupKeysOf dupParams df cat).count ((dupKeysOf dupParams df cat).getD i [])
       then CellValue.str "HAS duplicates"
       else CellValue.str "NO duplicates") := by
    unfold dupStatusCell
    rw [fn_check_of_nonempty dupParams df cat hne]
    rw [cell_setCol_self df "Duplicate Status" _ i hwf
      (by rw [duplicateStatuses_length, hkl]) hi]
    unfold duplicateStatuses
    exact getD_range_map _ ((dupKeysOf dupParams df cat).length) i CellValue.null
      (by omega)
  have hile : i ≤ (dupKeysOf dupParams df cat).length := by
    rw [hkl]
    omega
  have hmemtake := mem_take_iff_getD (dupKeysOf dupParams df cat) i
    ((dupKeysOf dupParams df cat).getD i []) [] hile
  refine ⟨?_, ?_, ?_⟩
  · intro hcount
    have hnotin : (dupKeysOf dupParams df cat).getD i [] ∉
        (dupKeysOf dupParams df cat).take i := by
      intro hmem
      obtain ⟨j, hj, hjeq⟩ := hmemtake.mp hmem
      have h2 := two_le_count_of_earlier (dupKeysOf dupParams df cat) i j [] hj
        (by rw [hkl]; exact hi) hjeq
      rw [hcount] at h2
      omega
    rw [hstatus, if_neg hnotin, if_neg (by rw [hcount]; omega)]
  · intro hcount
    constructor
    · intro hfirst
      have hnotin : (dupKeysOf dupParams df cat).getD i [] ∉
          (dupKeysOf dupParams df cat).take i := by
        intro hmem
        obtain ⟨j, hj, hjeq⟩ := hmemtake.mp hmem
        exact hfirst j hj hjeq
      rw [hstatus, if_neg hnotin, if_pos hcount]
    · rintro ⟨j, hj, hjeq⟩
      have hin : (dupKeysOf dupParams df cat).getD i [] ∈
          (dupKeysOf dupParams df cat).take i :=
        hmemtake.mpr ⟨j, hj, hjeq⟩
      rw [hstatus, if_pos hin]
  · rw [hstatus]
    split
    · exact Or.inr (Or.inr rfl)
    · split
      · exact Or.inr (Or.inl rfl)
      · exact Or.inl rfl

/-- Witness for C1 on a concrete record set: row 0 of the duplicated pair
is HAS duplicates, row 1 IS duplicate, the singleton row 2 NO duplicates. -/
theorem C1_duplicate_status_partition_witness :
    (∀ r ∈ exDupTable.rows, r.length = exDupTable.cols.length) ∧
    0 < exDupTable.rows.length ∧
    dupStatusCell (fun _ => []) exDupTable "CAT" 0 = .str "HAS duplicates" ∧
    dupStatusCell (fun _ => []) exDupTable "CAT" 1 = .str "IS duplicate" ∧
    dupStatusCell (fun _ => []) exDupTable "CAT" 2 = .str "NO duplicates" := by
  refine ⟨by decide, by decide, ?_, ?_, ?_⟩
  · exact ((C1_duplicate_status_partition (fun _ => []) exDupTable "CAT" 0
      (by decide) (by decide)).2.1 (by decide)).1
      (fun j hj _ => absurd hj (Nat.not_lt_zero j))
  · exact ((C1_duplicate_status_partition (fun _ => []) exDupTable "CAT" 1
      (by decide) (by decide)).2.1 (by decide)).2 ⟨0, by decide, by decide⟩
  · exact (C1_duplicate_status_partition (fun _ => []) exDupTable "CAT" 2
      (by decide) (by decide)).1 (by decide)

/-- Claim C5: when none of the configured duplicate-key fields (or an empty
configuration) is present in the record set, the detector falls back to the
full column list as the grouping key: the resolved criteria are exactly the
columns, and the detector behaves as with an empty configuration. -/
theorem C5_duplicate_key_fallback (dupParams : String → List String)
    (df : Table) (cat : String) (hne : df.rows ≠ [])
    (habs : ∀ c ∈ (dupParams cat).map pyStrip, c ∉ df.cols) :
    resolve_criteriacolumns dupParams df cat = df.cols
    ∧ fn_check_duplicatedrecords dupParams df cat
        = fn_check_duplicatedrecords (fun _ => []) df cat := by
  have hres : resolve_criteriacolumns dupParams df cat = df.cols := by
    unfold resolve_criteriacolumns
    have hf : ((dupParams cat).map pyStrip).filter
        (fun c => decide (c ∈ df.cols)) = [] := by
      rw [List.filter_eq_nil_iff]
      intro a ha
      simpa using habs a ha
    simp only [hf]
    simp
  have hres0 : resolve_criteriacolumns (fun _ => []) df cat = df.cols := by
    unfold resolve_criteriacolumns
    simp
  refine ⟨hres, ?_⟩
  unfold fn_check_duplicatedrecords
  rw [hres, hres0]

/-- Witness for C5: a configured key list whose only field is absent from
the record set resolves to the full column list. -/
theorem C5_duplicate_key_fallback_witness :
    exDupTable.rows ≠ [] ∧
    (∀ c ∈ (["Z"].map pyStrip), c ∉ exDupTable.cols) ∧
    resolve_criteriacolumns (fun _ => ["Z"]) exDupTable "CAT" = exDupTable.cols := by
  refine ⟨by decide, by decide, ?_⟩
  exact (C5_duplicate_key_fallback (fun _ => ["Z"]) exDupTable "CAT"
    (by decide) (by decide)).1

/-- Counterexample to claim C10 as stated: on an input that already carries
a `Duplicate Status` column, the detector adds no new column at all and
overwrites the existing column's values, so "every original column's values
unchanged, the only modification being the addition of the single new
column" fails. -/
theorem C10_counterexample :
    (fn_check_duplicatedrecords (fun _ => []) exDupStatusTable "CAT").cols
      = ["A", "Duplicate Status"]
    ∧ (fn_check_duplicatedrecords (fun _ => []) exDupStatusTable "CAT").cell 0
        "Duplicate Status" = .str "NO duplicates"
    ∧ exDupStatusTable.cell 0 "Duplicate Status" = .str "keepme" := by
  decide

/-- Claim C10 as amended: the detector operates on a copy and returns, for
a non-empty input, a table with the same number of rows in the same order
and every original column other than a pre-existing `Duplicate Status`
column unchanged; the `Duplicate Status` column is appended when absent and
overwritten in place when present; an empty input yields an empty table. -/
theorem C10_frame_amended (dupParams : String → List String) (df : Table)
    (cat : String) (hwf : ∀ r ∈ df.rows, r.length = df.cols.length) :
    (df.rows = [] → fn_check_duplicatedrecords dupParams df cat = Table.empty)
    ∧ (df.rows ≠ [] →
        (fn_check_duplicatedrecords dupParams df cat).rows.length = df.rows.length
        ∧ (fn_check_duplicatedrecords dupParams df cat).cols
            = (if "Duplicate Status" ∈ df.cols then df.cols
               else df.cols ++ ["Duplicate Status"])
        ∧ ∀ i, i < df.rows.length → ∀ c, c ∈ df.cols → c ≠ "Duplicate Status" →
            (fn_check_duplicatedrecords dupParams df cat).cell i c = df.cell i c) := by
  constructor
  · intro h
    unfold fn_check_duplicatedrecords
    rw [if_pos (by simpa [List.isEmpty_iff] using h)]
  · intro hne
    have hkl : (duplicateStatuses (dupKeysOf dupParams df cat)).length
        = df.rows.length := by
      rw [duplicateStatuses_length]
      simp [dupKeysOf]
    rw [fn_check_of_nonempty dupParams df cat hne]
    refine ⟨setCol_rows_length df _ _ hkl, setCol_cols df _ _, ?_⟩
    intro i hi c hc hcn
    exact cell_setCol_other df "Duplicate Status" c _ i hwf hi (by omega) hcn hc

/-- Witness for C10 on a concrete record set without a pre-existing status
column: the column list is extended by `Duplicate Status` and the original
column is untouched. -/
theorem C10_frame_amended_witness :
    (∀ r ∈ exDupTable.rows, r.length = exDupTable.cols.length) ∧
    (fn_check_duplicatedrecords (fun _ => []) exDupTable "CAT").cols
      = exDupTable.cols ++ ["Duplicate Status"] ∧
    (fn_check_duplicatedrecords (fun _ => []) exDupTable "CAT").cell 0 "A"
      = exDupTable.cell 0 "A" := by
  refine ⟨by decide, ?_, ?_⟩
  · have h := ((C10_frame_amended (fun _ => []) exDupTable "CAT"
      (by decide)).2 (by decide)).2.1
    rw [h]
    decide
  · exact ((C10_frame_amended (fun _ => []) exDupTable "CAT"
      (by decide)).2 (by decide)).2.2 0 (by decide) "A" (by decide) (by decide)

/-!  Claim C2: the schema matcher.  The nested row/entry loops are related
to a single first-match search over the (row, entry) pair list in
row-ascending then catalog-entry order. -/

theorem findSome?_if_eq (p : α → Bool) (f : α → β) (l : List α) :
    l.findSome? (fun x => if p x then some (f x) else none) = (l.find? p).map f := by
  induction l with
  | nil => rfl
  | cons a as ih =>
    by_cases h : p a
    · simp [List.findSome?_cons, List.find?_cons, h]
    · simp [List.findSome?_cons, List.find?_cons, h, ih]

theorem find?_flatMap (l : List α) (g : α → List β) (q : β → Bool) :
    (l.flatMap g).find? q = l.findSome? (fun a => (g a).find? q) := by
  induction l with
  | nil => rfl
  | cons a as ih =>
    rw [List.flatMap_cons, List.find?_append, List.findSome?_cons]
    rcases h : (g a).find? q with _ | b
    · simpa [Option.or] using ih
    · simp [Option.or]

theorem findSome?_map_opt (l : List α) (f : α → Option β) (h : β → γ) :
    (l.findSome? f).map h = l.findSome? (fun a => (f a).map h) := by
  induction l with
  | nil => rfl
  | cons a as ih =>
    rw [List.findSome?_cons, List.findSome?_cons]
    rcases hf : f a with _ | b
    · simpa using ih
    · simp

/-- The nested pass of the matcher equals a single first-match scan over the
(row, entry) pairs in row-ascending, entry-ascending order. -/
theorem matcherPass_eq_pairs (cat : List (String × List String))
    (newh : String → List String) (sheet : List (List String)) (maxIter : Nat)
    (test : List String → List String → Bool) :
    matcherPass cat newh sheet maxIter test
      = ((specScanPairs cat maxIter).find?
          (fun p => test (entryHeaders p.2.2) (rowCells sheet p.1))).map
          (specResultAt newh sheet) := by
  unfold matcherPass specScanPairs
  rw [find?_flatMap, findSome?_map_opt]
  congr 1
  funext r
  rw [List.find?_map, Option.map_map]
  rw [findSome?_if_eq (fun e => test (entryHeaders e.2) (rowCells sheet r))
    (fun e => matchResultAt newh sheet e.1 e.2 r) cat]
  rfl

/-- Claim C2 as amended: the matcher is extensionally the claim's two-pass
first-match scan over (row, entry) pairs in row-ascending then
catalog-entry order, except that the no-match result carries header row
`None` (not 0) alongside the empty header and position lists. -/
theorem C2_matcher_amended (cat : List (String × List String))
    (newh : String → List String) (sheet : List (List String))
    (maxIterations : Nat) :
    fn_find_matching_category cat newh sheet maxIterations
      = spec_match_amended cat newh sheet maxIterations := by
  unfold fn_find_matching_category spec_match_amended
  rw [matcherPass_eq_pairs, matcherPass_eq_pairs]
  rcases h1 : (specScanPairs cat (min sheet.length maxIterations)).find?
      (fun p => setEqHeaders (entryHeaders p.2.2) (rowCells sheet p.1)) with _ | p1
  · rcases h2 : (specScanPairs cat (min sheet.length maxIterations)).find?
        (fun p => subsetOfHeaders (entryHeaders p.2.2) (rowCells sheet p.1)) with _ | p2
    · simp [h1, h2]
    · simp [h1, h2]
  · simp [h1]

/-- Counterexample to claim C2 as stated: on a sheet matching no catalog
entry the matcher returns UNKNOWN with header row `None`, while the claim
requires header_row_index = 0 (the reference `spec_match_per_claim` follows
the claim's words). -/
theorem C2_counterexample :
    fn_find_matching_category [("CAT1", ["H1"])] (fun _ => []) [["X"]]
      = ⟨"UNKNOWN", none, [], [], []⟩
    ∧ spec_match_per_claim [("CAT1", ["H1"])] (fun _ => []) [["X"]]
      = ⟨"UNKNOWN", some 0, [], [], []⟩ := by
  decide

/-!  Claim C9: the sign-exchange transform. -/

theorem cell_eq_cellAtRow (t : Table) (i : Nat) (c : String) :
    t.cell i c = cellAtRow t.cols c (t.rows.getD i []) := rfl

theorem cellAtRow_of_some (cols : List String) (c : String) (r : List CellValue)
    (j : Nat) (h : idxOfCol cols c = some j) :
    cellAtRow cols c r = r.getD j .null := by
  unfold cellAtRow
  rw [h]

/-- Counterexample to claim C9 as stated: on the row (price, quantity) =
(-5, -3) the code produces (5, -3): the quantity is set to minus its
absolute value, not negated (negation would give +3). -/
theorem C9_counterexample :
    (fn_exchange_negativesign ⟨["P", "Q"], [[.num (-5), .num (-3)]]⟩ "P" "Q").rows
      = [[.num 5, .num (-3)]]
    ∧ CellValue.num (-3) ≠ CellValue.num (-(-3 : ℚ)) := by
  decide

/-- Claim C9 as amended: on every row whose price field is negative the
transform flips the price's sign (made positive) and sets the paired
quantity field to minus the absolute value of its own original value (so a
quantity already negative stays as it is); rows with non-negative price are
unchanged; no output row has both fields negative. -/
theorem C9_sign_exchange_amended (df : Table) (fromCol toCol : String) (i : Nat)
    (hwf : ∀ r ∈ df.rows, r.length = df.cols.length)
    (hi : i < df.rows.length) (hne : fromCol ≠ toCol) (x y : ℚ)
    (hx : df.cell i fromCol = .num x) (hy : df.cell i toCol = .num y) :
    (x < 0 →
      (fn_exchange_negativesign df fromCol toCol).cell i fromCol = .num (-x)
      ∧ (fn_exchange_negativesign df fromCol toCol).cell i toCol = .num (-|y|))
    ∧ (0 ≤ x →
      (fn_exchange_negativesign df fromCol toCol).rows.getD i [] = df.rows.getD i [])
    ∧ (∀ p q : ℚ,
        (fn_exchange_negativesign df fromCol toCol).cell i fromCol = .num p →
        (fn_exchange_negativesign df fromCol toCol).cell i toCol = .num q →
        ¬(p < 0 ∧ q < 0)) := by
  have hrl : (df.rows.getD i []).length = df.cols.length :=
    hwf _ (getD_mem df.rows i [] hi)
  obtain ⟨jF, hjF⟩ : ∃ j, idxOfCol df.cols fromCol = some j := by
    rcases ho : idxOfCol df.cols fromCol with _ | k
    · rw [cell_eq_cellAtRow, cellAtRow, ho] at hx
      exact absurd hx (by simp)
    · exact ⟨k, rfl⟩
  obtain ⟨jT, hjT⟩ : ∃ j, idxOfCol df.cols toCol = some j := by
    rcases ho : idxOfCol df.cols toCol with _ | k
    · rw [cell_eq_cellAtRow, cellAtRow, ho] at hy
      exact absurd hy (by simp)
    · exact ⟨k, rfl⟩
  have hjFlt : jF < (df.rows.getD i []).length := by
    rw [hrl]
    exact idxOfCol_some_lt _ _ _ hjF
  have hjTlt : jT < (df.rows.getD i []).length := by
    rw [hrl]
    exact idxOfCol_some_lt _ _ _ hjT
  have hjne : jF ≠ jT := by
    intro hcontra
    subst hcontra
    have h1 := idxOfCol_some_getD df.cols fromCol jF hjF
    have h2 := idxOfCol_some_getD df.cols toCol jF hjT
    exact hne (h1 ▸ h2 ▸ rfl)
  have hxr : cellAtRow df.cols fromCol (df.rows.getD i []) = .num x := hx
  have hyr : cellAtRow df.cols toCol (df.rows.getD i []) = .num y := hy
  have hrowmap : (fn_exchange_negativesign df fromCol toCol).rows.getD i []
      = (fun r => match cellAtRow df.cols fromCol r with
          | .num x0 =>
            if x0 < 0 then
              let r1 := match idxOfCol df.cols fromCol with
                | some j => r.set j (.num (-x0))
                | none => r
              match cellAtRow df.cols toCol r with
              | .num y0 =>
                match idxOfCol df.cols toCol with
                | some j => r1.set j (.num (-|y0|))
                | none => r1
              | _ => r1
            else r
          | _ => r) (df.rows.getD i []) := by
    show (df.rows.map _).getD i [] = _
    exact getD_map_lt _ df.rows i [] [] hi
  rcases lt_or_le x 0 with hneg | hpos
  · -- the negative-price branch: both columns rewritten
    have hrow : (fn_exchange_negativesign df fromCol toCol).rows.getD i []
        = ((df.rows.getD i []).set jF (.num (-x))).set jT (.num (-|y|)) := by
      rw [hrowmap]
      simp only [hxr, hjF, hyr, hjT, if_pos hneg]
    have hcF : (fn_exchange_negativesign df fromCol toCol).cell i fromCol
        = .num (-x) := by
      rw [cell_eq_cellAtRow,
        cellAtRow_of_some (fn_exchange_negativesign df fromCol toCol).cols
          fromCol _ jF hjF, hrow]
      rw [getD_set_ne _ jT jF _ _ (Ne.symm hjne)]
      exact getD_set_self _ jF _ _ hjFlt
    have hcT : (fn_exchange_negativesign df fromCol toCol).cell i toCol
        = .num (-|y|) := by
      rw [cell_eq_cellAtRow,
        cellAtRow_of_some (fn_exchange_negativesign df fromCol toCol).cols
          toCol _ jT hjT, hrow]
      exact getD_set_self _ jT _ _ (by simpa using hjTlt)
    refine ⟨fun _ => ⟨hcF, hcT⟩, fun hc => absurd hneg (by simpa using hc), ?_⟩
    intro p q hp hq
    rw [hcF] at hp
    have hpx : p = -x := by
      injection hp.symm
    intro hcon
    have : (0 : ℚ) < -x := by linarith
    rw [hpx] at hcon
    linarith [hcon.1]
  · -- the non-negative branch: the row is unchanged
    have hrow : (fn_exchange_negativesign df fromCol toCol).rows.getD i []
        = df.rows.getD i [] := by
      rw [hrowmap]
      simp only [hxr, if_neg (not_lt.mpr hpos)]
    refine ⟨fun hc => absurd hc (not_lt.mpr hpos), fun _ => hrow, ?_⟩
    intro p q hp hq
    rw [cell_eq_cellAtRow,
      cellAtRow_of_some (fn_exchange_negativesign df fromCol toCol).cols
        fromCol _ jF hjF, hrow] at hp
    rw [cellAtRow_of_some df.cols fromCol _ jF hjF] at hxr
    rw [hxr] at hp
    have hpx : p = x := by
      injection hp.symm
    intro hcon
    rw [hpx] at hcon
    linarith [hcon.1]

/-- Witness for C9 on concrete rows: a (-5, -3) row becomes (5, -3) and a
(2, -4) row is unchanged. -/
theorem C9_sign_exchange_amended_witness :
    ((fn_exchange_negativesign ⟨["P", "Q"], [[.num (-5), .num (-3)], [.num 2, .num (-4)]]⟩
        "P" "Q").cell 0 "P" = .num 5
     ∧ (fn_exchange_negativesign ⟨["P", "Q"], [[.num (-5), .num (-3)], [.num 2, .num (-4)]]⟩
        "P" "Q").cell 0 "Q" = .num (-3))
    ∧ (fn_exchange_negativesign ⟨["P", "Q"], [[.num (-5), .num (-3)], [.num 2, .num (-4)]]⟩
        "P" "Q").rows.getD 1 []
      = [CellValue.num 2, CellValue.num (-4)] := by
  constructor
  · have h := (C9_sign_exchange_amended
      ⟨["P", "Q"], [[.num (-5), .num (-3)], [.num 2, .num (-4)]]⟩ "P" "Q" 0
      (by decide) (by decide) (by decide) (-5) (-3) (by decide) (by decide)).1
      (by norm_num)
    refine ⟨?_, ?_⟩
    · rw [h.1]
      norm_num
    · rw [h.2]
      norm_num
  · have h := (C9_sign_exchange_amended
      ⟨["P", "Q"], [[.num (-5), .num (-3)], [.num 2, .num (-4)]]⟩ "P" "Q" 1
      (by decide) (by decide) (by decide) 2 (-4) (by decide) (by decide)).2.1
      (by norm_num)
    rw [h]
    decide

/-!  Claim C7: the yearly summary.  Membership lemmas for the sorting and
deduplication helpers, then the corrected column-selection theorem. -/

theorem mem_insertOrdered (le : α → α → Bool) (x a : α) (l : List α) :
    a ∈ insertOrdered le x l ↔ a = x ∨ a ∈ l := by
  induction l with
  | nil => simp [insertOrdered]
  | cons b bs ih =>
    by_cases h : le x b
    · simp [insertOrdered, h]
    · simp only [insertOrdered, if_neg h, List.mem_cons, ih]
      tauto

theorem mem_sortWithLe (le : α → α → Bool) (a : α) (l : List α) :
    a ∈ sortWithLe le l ↔ a ∈ l := by
  induction l with
  | nil => simp [sortWithLe]
  | cons b bs ih =>
    show a ∈ insertOrdered le b (sortWithLe le bs) ↔ _
    rw [mem_insertOrdered, ih]
    simp

theorem mem_dedupKeepFirstGo [DecidableEq α] (seen : List α) (l : List α) (a : α) :
    a ∈ dedupKeepFirstGo seen l ↔ a ∈ l ∧ a ∉ seen := by
  induction l generalizing seen with
  | nil => simp [dedupKeepFirstGo]
  | cons b bs ih =>
    by_cases h : b ∈ seen
    · rw [dedupKeepFirstGo, if_pos h, ih]
      constructor
      · rintro ⟨hm, hs⟩
        exact ⟨List.mem_cons_of_mem b hm, hs⟩
      · rintro ⟨hm, hs⟩
        rcases List.mem_cons.mp hm with rfl | hm2
        · exact absurd h hs
        · exact ⟨hm2, hs⟩
    · rw [dedupKeepFirstGo, if_neg h]
      rw [List.mem_cons, ih]
      constructor
      · rintro (rfl | ⟨hm, hs⟩)
        · exact ⟨List.mem_cons_self a bs, h⟩
        · refine ⟨List.mem_cons_of_mem b hm, fun hseen => ?_⟩
          exact hs (List.mem_cons_of_mem b hseen)
      · rintro ⟨hm, hs⟩
        by_cases hab : a = b
        · exact Or.inl hab
        · rcases List.mem_cons.mp hm with h1 | h1
          · exact absurd h1 hab
          · refine Or.inr ⟨h1, fun hbs => ?_⟩
            rcases List.mem_cons.mp hbs with h2 | h2
            · exact hab h2
            · exact hs h2

theorem mem_dedupKeepFirst [DecidableEq α] (l : List α) (a : α) :
    a ∈ dedupKeepFirst l ↔ a ∈ l := by
  rw [dedupKeepFirst, mem_dedupKeepFirstGo]
  simp

set_option maxRecDepth 4000 in
/-- Counterexample to claim C7 as stated: the numeric column QUANTITY
matches none of the configured include patterns, yet with the engine's
pattern configuration (which keeps only the exclude half of
`get_numeric_field_config`) the yearly summary sums it: include patterns
are never consulted. -/
theorem C7_counterexample :
    default_include_patterns.all
      (fun p => !strContainsSub (pyToUpper "QUANTITY") (pyToUpper p)) = true
    ∧ engine_exclude_patterns [] = default_exclude_patterns
    ∧ "QUANTITY" ∈ (generate_yearly_summary (engine_exclude_patterns []) exYearTable).cols
    ∧ (generate_yearly_summary (engine_exclude_patterns []) exYearTable).cell 0
        "QUANTITY" = .num 5 := by
  with_unfolding_all decide

/-- Claim C7 as amended: the yearly summary buckets the rows by the YEAR
column (non-null years, sorted ascending) and, per year, sums exactly the
numeric columns whose names contain no configured exclude pattern — the
configured include patterns play no role — attaching the formatted min/max
transaction-date range of each year's rows; columns are YEAR, Date Range,
then the selected numeric columns. -/
theorem C7_yearly_summary_amended (excludePatterns : List String) (df : Table)
    (hY : "YEAR" ∈ df.cols)
    (hnum : get_numeric_columns df excludePatterns ≠ []) :
    (generate_yearly_summary excludePatterns df).cols
      = ["YEAR", "Date Range"] ++ get_numeric_columns df excludePatterns
    ∧ (∀ c, c ∈ get_numeric_columns df excludePatterns ↔
        (c ∈ df.cols ∧ is_numeric_dtype df c = true ∧
         ∀ p ∈ excludePatterns,
           strContainsSub (pyToUpper c) (pyToUpper p) = false))
    ∧ (generate_yearly_summary excludePatterns df).rows.length
        = (sortWithLe cellLeb (dedupKeepFirst
            ((colValues df "YEAR").filter (fun v => v ≠ .null)))).length
    ∧ (∀ i, i < (sortWithLe cellLeb (dedupKeepFirst
          ((colValues df "YEAR").filter (fun v => v ≠ .null)))).length →
        (generate_yearly_summary excludePatterns df).rows.getD i []
          = [(sortWithLe cellLeb (dedupKeepFirst
                ((colValues df "YEAR").filter (fun v => v ≠ .null)))).getD i .null,
             .str ((get_date_range (rowsWhereCol df "YEAR"
                ((sortWithLe cellLeb (dedupKeepFirst
                  ((colValues df "YEAR").filter (fun v => v ≠ .null)))).getD i .null))).1
              ++ " to "
              ++ (get_date_range (rowsWhereCol df "YEAR"
                ((sortWithLe cellLeb (dedupKeepFirst
                  ((colValues df "YEAR").filter (fun v => v ≠ .null)))).getD i .null))).2)]
            ++ (get_numeric_columns df excludePatterns).map (fun c => .num
              (((rowsWhereCol df "YEAR"
                  ((sortWithLe cellLeb (dedupKeepFirst
                    ((colValues df "YEAR").filter (fun v => v ≠ .null)))).getD i .null)).rows.map
                (fun r => numValOf (cellAtRow df.cols c r))).sum)))
    ∧ (∀ y, y ∈ sortWithLe cellLeb (dedupKeepFirst
          ((colValues df "YEAR").filter (fun v => v ≠ .null))) ↔
        (y ≠ .null ∧ y ∈ colValues df "YEAR")) := by
  have hgen : generate_yearly_summary excludePatterns df =
      ⟨["YEAR", "Date Range"] ++ get_numeric_columns df excludePatterns,
       (sortWithLe cellLeb (dedupKeepFirst
          ((colValues df "YEAR").filter (fun v => v ≠ .null)))).map (fun y =>
         [y, .str ((get_date_range (rowsWhereCol df "YEAR" y)).1 ++ " to "
            ++ (get_date_range (rowsWhereCol df "YEAR" y)).2)]
         ++ (get_numeric_columns df excludePatterns).map
            (fun c => .num (sumColOver (rowsWhereCol df "YEAR" y) c)))⟩ := by
    unfold generate_yearly_summary
    rw [if_neg (not_not_intro hY)]
    rw [if_neg (by simpa [List.isEmpty_iff] using hnum)]
  refine ⟨by rw [hgen], ?_, by rw [hgen]; simp, ?_, ?_⟩
  · intro c
    unfold get_numeric_columns
    rw [List.mem_filter]
    rw [Bool.and_eq_true, List.all_eq_true]
    constructor
    · rintro ⟨hc, hdt, hall⟩
      refine ⟨hc, hdt, fun p hp => ?_⟩
      have := hall p hp
      simpa using this
    · rintro ⟨hc, hdt, hall⟩
      refine ⟨hc, hdt, fun p hp => ?_⟩
      simpa using hall p hp
  · intro i hilt
    rw [hgen]
    show ((sortWithLe cellLeb _).map _).getD i [] = _
    rw [getD_map_lt _ _ i CellValue.null [] hilt]
    simp only [sumColOver, colValues, List.map_map]
    rfl
  · intro y
    rw [mem_sortWithLe, mem_dedupKeepFirst, List.mem_filter]
    simp only [decide_eq_true_eq]
    exact and_comm

/-- Witness for the amended C7 on a concrete table: the summary's columns
are YEAR, Date Range and the selected numeric column. -/
theorem C7_yearly_summary_amended_witness :
    "YEAR" ∈ exYearTable.cols ∧
    get_numeric_columns exYearTable default_exclude_patterns ≠ [] ∧
    (generate_yearly_summary default_exclude_patterns exYearTable).cols
      = ["YEAR", "Date Range"]
        ++ get_numeric_columns exYearTable default_exclude_patterns := by
  exact ⟨by decide, by decide,
    (C7_yearly_summary_amended default_exclude_patterns exYearTable
      (by decide) (by decide)).1⟩

/-!  Claim C6: the Top-N concentration analysis. -/

theorem perm_insertOrdered (le : α → α → Bool) (x : α) (l : List α) :
    List.Perm (insertOrdered le x l) (x :: l) := by
  induction l with
  | nil => exact List.Perm.refl _
  | cons b bs ih =>
    by_cases h : le x b
    · rw [insertOrdered, if_pos h]
    · rw [insertOrdered, if_neg h]
      exact (ih.cons b).trans (List.Perm.swap x b bs)

theorem perm_sortWithLe (le : α → α → Bool) (l : List α) :
    List.Perm (sortWithLe le l) l := by
  induction l with
  | nil => exact List.Perm.refl _
  | cons b bs ih =>
    show List.Perm (insertOrdered le b (sortWithLe le bs)) (b :: bs)
    exact (perm_insertOrdered le b (sortWithLe le bs)).trans (ih.cons b)

theorem length_sortWithLe (le : α → α → Bool) (l : List α) :
    (sortWithLe le l).length = l.length :=
  (perm_sortWithLe le l).length_eq

theorem topYearData_length (dfc : Table) (pc : String) (numeric : List String)
    (y : CellValue) :
    (topYearData dfc pc numeric y).length
      = ((dedupKeepFirst (dfc.rows.filterMap (ypOfRow dfc.cols pc))).filter
          (fun k => k.1 = y)).length := by
  unfold topYearData
  rw [length_sortWithLe]
  exact ((perm_sortWithLe pairLeb _).filter _).length_eq

/-- Membership in the Top-N table: a (year, Top n) row exists exactly when
n is one of 5, 10, 20 and the year has at least n distinct
(YEAR, partner) groups among the clean rows. -/
theorem topTable_mem_iff (dfc : Table) (pc : String) (numeric : List String)
    (y : CellValue) (n : Nat) :
    (∃ row, row ∈ topTable dfc pc numeric ∧ row.year = y ∧ row.topN = n) ↔
    (n ∈ ([5, 10, 20] : List Nat) ∧
     n ≤ ((dedupKeepFirst (dfc.rows.filterMap (ypOfRow dfc.cols pc))).filter
            (fun k => k.1 = y)).length) := by
  constructor
  · rintro ⟨row, hrow, hyear, htopn⟩
    unfold topTable at hrow
    obtain ⟨y0, hy0, hinner⟩ := List.mem_flatMap.mp hrow
    unfold topYearRows at hinner
    obtain ⟨n0, hn0, hif⟩ := List.mem_filterMap.mp hinner
    by_cases hcond : n0 ≤ (topYearData dfc pc numeric y0).length
    · rw [if_pos hcond] at hif
      injection hif with hrow2
      rw [← hrow2] at hyear htopn
      simp only at hyear htopn
      subst hyear
      subst htopn
      rw [topYearData_length] at hcond
      exact ⟨hn0, hcond⟩
    · rw [if_neg hcond] at hif
      cases hif
  · rintro ⟨hn, hle⟩
    have hpos : 0 < n := by
      have : n = 5 ∨ n = 10 ∨ n = 20 := by simpa using hn
      omega
    have hlt : 0 < ((dedupKeepFirst (dfc.rows.filterMap (ypOfRow dfc.cols pc))).filter
        (fun k => k.1 = y)).length := by omega
    obtain ⟨k, hk⟩ := List.exists_mem_of_length_pos hlt
    obtain ⟨hkd, hky0⟩ := List.mem_filter.mp hk
    have hky : k.1 = y := of_decide_eq_true hky0
    have hymem : y ∈ sortWithLe cellLeb (dedupKeepFirst ((topKeys dfc pc).map Prod.fst)) := by
      rw [mem_sortWithLe, mem_dedupKeepFirst]
      refine List.mem_map.mpr ⟨k, ?_, hky⟩
      unfold topKeys
      rw [mem_sortWithLe]
      exact hkd
    refine ⟨⟨y, n,
      (((topYearData dfc pc numeric y).take n).map (topPairSum dfc pc numeric)).sum,
      if 0 < ((topYearData dfc pc numeric y).map (topPairSum dfc pc numeric)).sum then
        (((topYearData dfc pc numeric y).take n).map (topPairSum dfc pc numeric)).sum
          / ((topYearData dfc pc numeric y).map (topPairSum dfc pc numeric)).sum * 100
      else 0⟩, ?_, rfl, rfl⟩
    unfold topTable
    apply List.mem_flatMap.mpr
    refine ⟨y, hymem, ?_⟩
    unfold topYearRows
    apply List.mem_filterMap.mpr
    refine ⟨n, hn, ?_⟩
    rw [if_pos (by rw [topYearData_length]; exact hle)]

theorem filterClean_cols (df : Table) (c : String) :
    (filterClean df c).cols = df.cols := rfl

theorem topCleanOf_cols (df : Table) : (topCleanOf df).cols = df.cols := by
  unfold topCleanOf
  rcases h : find_duplicate_status_col df.cols with _ | c
  · rfl
  · rfl

theorem topCleanOf_eq_of_some (df : Table) (c : String)
    (hdc : find_duplicate_status_col df.cols = some c) :
    topCleanOf df = filterClean df c := by
  unfold topCleanOf
  rw [hdc]

theorem topCleanOf_idem (df : Table) (c : String)
    (hdc : find_duplicate_status_col df.cols = some c) :
    topCleanOf (topCleanOf df) = topCleanOf df := by
  rw [topCleanOf_eq_of_some df c hdc,
    topCleanOf_eq_of_some (filterClean df c) c hdc]
  simp only [filterClean, List.filter_filter]
  simp

/-- Claim C6: the Top-N analysis is computed only over clean records (NO
DUPLICATES and HAS DUPLICATES rows; IS DUPLICATE rows are discarded before
any aggregation), and a Top-N row for a year is emitted exactly when n is
5, 10 or 20 and that year has at least n distinct partners among the clean
rows. -/
theorem C6_top_analysis_clean_and_threshold (excludePatterns : List String)
    (df : Table) (g : String) (c pc pt : String)
    (hdc : find_duplicate_status_col df.cols = some c)
    (hpc : resolvePartner df.cols g = some (pc, pt)) :
    generate_top_analysis excludePatterns df g
      = generate_top_analysis excludePatterns (topCleanOf df) g
    ∧ (∀ res, generate_top_analysis excludePatterns df g = some res →
        res.partnerType = pt
        ∧ ∀ y n, (∃ row, row ∈ res.table ∧ row.year = y ∧ row.topN = n) ↔
            (n ∈ ([5, 10, 20] : List Nat) ∧
             n ≤ ((dedupKeepFirst ((filterClean df c).rows.filterMap
                    (ypOfRow df.cols pc))).filter (fun k => k.1 = y)).length)) := by
  constructor
  · unfold generate_top_analysis
    rw [topCleanOf_idem df c hdc, topCleanOf_cols df]
  · intro res hres
    unfold generate_top_analysis at hres
    by_cases hY : "YEAR" ∈ df.cols
    · rw [if_neg (not_not_intro hY)] at hres
      have hclean : topCleanOf df = filterClean df c := by
        unfold topCleanOf
        rw [hdc]
      rw [hclean] at hres
      by_cases hemp : (filterClean df c).rows.isEmpty
      · rw [if_pos hemp] at hres
        cases hres
      · rw [if_neg hemp] at hres
        by_cases hnum : (get_numeric_columns (filterClean df c) excludePatterns).isEmpty
        · rw [if_pos hnum] at hres
          cases hres
        · rw [if_neg hnum] at hres
          rw [show resolvePartner (filterClean df c).cols g = some (pc, pt) from hpc]
            at hres
          rw [Option.some.injEq] at hres
          subst hres
          refine ⟨rfl, ?_⟩
          intro y n
          exact topTable_mem_iff (filterClean df c) pc
            (get_numeric_columns (filterClean df c) excludePatterns) y n
    · rw [if_pos hY] at hres
      cases hres

/-- Witness for C6 on a concrete record set with a Duplicate Status column
and a supplier column: the analysis coincides with the analysis of the
clean subset. -/
theorem C6_top_analysis_clean_and_threshold_witness :
    find_duplicate_status_col exTopTable.cols = some "Duplicate Status" ∧
    resolvePartner exTopTable.cols "COGS-EXPENSES"
      = some ("SUPPLIER NAME", "Suppliers") ∧
    generate_top_analysis default_exclude_patterns exTopTable "COGS-EXPENSES"
      = generate_top_analysis default_exclude_patterns (topCleanOf exTopTable)
          "COGS-EXPENSES" := by
  exact ⟨by decide, by decide,
    (C6_top_analysis_clean_and_threshold default_exclude_patterns exTopTable
      "COGS-EXPENSES" "Duplicate Status" "SUPPLIER NAME" "Suppliers"
      (by decide) (by decide)).1⟩

/-!  Claim C8: the missing-date backfill. -/

theorem ext_getD (l₁ l₂ : List α) (d : α) (hlen : l₁.length = l₂.length)
    (h : ∀ i, i < l₁.length → l₁.getD i d = l₂.getD i d) : l₁ = l₂ := by
  induction l₁ generalizing l₂ with
  | nil =>
    cases l₂ with
    | nil => rfl
    | cons b bs => simp at hlen
  | cons a as ih =>
    cases l₂ with
    | nil => simp at hlen
    | cons b bs =>
      have h0 : a = b := by simpa using h 0 (by simp)
      rw [h0]
      congr 1
      refine ih bs (by simpa using hlen) (fun i hi => ?_)
      have := h (i + 1) (by simpa using Nat.succ_lt_succ hi)
      simpa [List.getD] using this

theorem zip_getD (as : List α) (bs : List β) (i : Nat) (da : α) (db : β)
    (ha : i < as.length) (hb : i < bs.length) :
    (as.zip bs).getD i (da, db) = (as.getD i da, bs.getD i db) := by
  induction as generalizing bs i with
  | nil => simp at ha
  | cons a as0 ih =>
    cases bs with
    | nil => simp at hb
    | cons b bs0 =>
      cases i with
      | zero => simp [List.getD]
      | succ k =>
        simp only [List.length_cons] at ha hb
        simpa [List.getD] using ih bs0 k (by omega) (by omega)

theorem ffillGo_length (acc : List CellValue) (rows : List (List CellValue)) :
    (ffillGo acc rows).length = rows.length := by
  induction rows generalizing acc with
  | nil => rfl
  | cons r rs ih => simp [ffillGo, ih]

theorem ffillGo_getD_zero (acc : List CellValue) (rows : List (List CellValue))
    (h : rows ≠ []) :
    (ffillGo acc rows).getD 0 []
      = List.zipWith (fun a v => if v = .null then a else v) acc (rows.getD 0 []) := by
  cases rows with
  | nil => exact absurd rfl h
  | cons r rs => simp [ffillGo, List.getD]

theorem ffillGo_getD_succ (acc : List CellValue) (rows : List (List CellValue))
    (i : Nat) (h : i + 1 < rows.length) :
    (ffillGo acc rows).getD (i + 1) []
      = List.zipWith (fun a v => if v = .null then a else v)
          ((ffillGo acc rows).getD i []) (rows.getD (i + 1) []) := by
  induction rows generalizing acc i with
  | nil => simp at h
  | cons r rs ih =>
    cases i with
    | zero =>
      cases rs with
      | nil => simp at h
      | cons r2 rs2 => simp [ffillGo, List.getD]
    | succ j =>
      simp only [List.length_cons] at h
      have hj : j + 1 < rs.length := by omega
      have := ih (List.zipWith (fun a v => if v = .null then a else v) acc r) j hj
      simpa [ffillGo, List.getD] using this

theorem length_of_mem_cartesianProd (ls : List (List CellValue))
    (cb : List CellValue) (h : cb ∈ cartesianProd ls) : cb.length = ls.length := by
  induction ls generalizing cb with
  | nil =>
    simp only [cartesianProd, List.mem_singleton] at h
    subst h
    rfl
  | cons l ls0 ih =>
    simp only [cartesianProd, List.mem_flatMap, List.mem_map] at h
    obtain ⟨x, _, cb2, hcb2, rfl⟩ := h
    simpa using ih cb2 hcb2

theorem mem_midCombos_length (df : Table) (dateCol : String)
    (otherCols : List String) (cb : List CellValue)
    (h : cb ∈ midCombos df dateCol otherCols) : cb.length = otherCols.length := by
  have := length_of_mem_cartesianProd (midUniques df dateCol otherCols) cb h
  simpa [midUniques] using this

theorem mem_midAllKeys_bounds (df : Table) (dateCol : String)
    (otherCols : List String) (k : Int × List CellValue)
    (h : k ∈ midAllKeys df dateCol otherCols) :
    midMin df dateCol otherCols ≤ k.1 ∧ k.1 ≤ midMax df dateCol otherCols
      ∧ k.2 ∈ midCombos df dateCol otherCols := by
  unfold midAllKeys at h
  obtain ⟨d, hd, hk⟩ := List.mem_flatMap.mp h
  obtain ⟨cb, hcb, rfl⟩ := List.mem_map.mp hk
  unfold midRange at hd
  obtain ⟨i, hi, rfl⟩ := List.mem_map.mp hd
  rw [List.mem_range] at hi
  refine ⟨by omega, by omega, hcb⟩

/-- Counterexample to claim C8 as stated: group A's observed dates are day
0 and day 1 only, yet the backfilled output holds 8 rows — one per (day,
group) pair over the single global range 0..3 — including a group-A row at
day 2, outside group A's own min/max span (the claim's per-group expansion
would produce 4 rows and no such row). -/
theorem C8_counterexample :
    (fn_insert_missingdates exBackfillTable "D" ["G"]).rows.length = 8
    ∧ (fn_insert_missingdates exBackfillTable "D" ["G"]).rows.getD 4 []
        = [.date 2, .str "A", .num 2]
    ∧ (exBackfillTable.rows.filter
        (fun r => cellAtRow exBackfillTable.cols "G" r = .str "A")).map
        (cellAtRow exBackfillTable.cols "D") = [.date 0, .date 1] := by
  with_unfolding_all decide

/-- Claim C8 as amended: for every data set with at least one valid date,
the backfill returns the key columns (date first, then the grouping
columns) followed by the data columns; its rows are exactly one per
(day, grouping-combination) pair of the single daily range spanning the
global minimum and maximum observed dates — the same range for every
combination of the grouping columns' observed values — in date-major
order; and the data cells are forward-filled from the prior row of that
expanded order (the first row from the reindexed lookup alone). -/
theorem C8_backfill_amended (df : Table) (dateCol : String)
    (otherCols : List String) (hne : midDateVals df dateCol otherCols ≠ []) :
    (fn_insert_missingdates df dateCol otherCols).cols
        = (dateCol :: otherCols) ++ midDataCols df dateCol otherCols
    ∧ (fn_insert_missingdates df dateCol otherCols).rows.map
        (fun r => r.take (1 + otherCols.length))
        = (midAllKeys df dateCol otherCols).map (fun k => CellValue.date k.1 :: k.2)
    ∧ (∀ r ∈ (fn_insert_missingdates df dateCol otherCols).rows,
        ∃ d, r.getD 0 .null = .date d
          ∧ midMin df dateCol otherCols ≤ d ∧ d ≤ midMax df dateCol otherCols)
    ∧ (∀ i, i < (fn_insert_missingdates df dateCol otherCols).rows.length →
        ((fn_insert_missingdates df dateCol otherCols).rows.getD i []).drop
            (1 + otherCols.length)
          = List.zipWith (fun a v => if v = .null then a else v)
              (if i = 0 then
                List.replicate (midDataCols df dateCol otherCols).length CellValue.null
               else
                ((fn_insert_missingdates df dateCol otherCols).rows.getD (i - 1) []).drop
                  (1 + otherCols.length))
              ((midRaw df dateCol otherCols).getD i [])) := by
  have hfn : fn_insert_missingdates df dateCol otherCols =
      ⟨(dateCol :: otherCols) ++ midDataCols df dateCol otherCols,
       ((midAllKeys df dateCol otherCols).zip
          (ffillRows (midDataCols df dateCol otherCols).length
            (midRaw df dateCol otherCols))).map
         (fun p => (CellValue.date p.1.1 :: p.1.2) ++ p.2)⟩ := by
    unfold fn_insert_missingdates
    rcases h : midDateVals df dateCol otherCols with _ | ⟨d0, ds⟩
    · exact absurd h hne
    · rfl
  have hrawlen : (midRaw df dateCol otherCols).length
      = (midAllKeys df dateCol otherCols).length := by
    simp [midRaw]
  have hflen : (ffillRows (midDataCols df dateCol otherCols).length
      (midRaw df dateCol otherCols)).length
      = (midAllKeys df dateCol otherCols).length := by
    rw [ffillRows, ffillGo_length, hrawlen]
  have hrowslen : (fn_insert_missingdates df dateCol otherCols).rows.length
      = (midAllKeys df dateCol otherCols).length := by
    rw [hfn]
    simp [hflen]
  have hkeylen : ∀ i, i < (midAllKeys df dateCol otherCols).length →
      (((midAllKeys df dateCol otherCols).getD i (0, [])).2).length
        = otherCols.length := by
    intro i hi
    have hmem := getD_mem (midAllKeys df dateCol otherCols) i (0, []) hi
    exact mem_midCombos_length df dateCol otherCols _
      (mem_midAllKeys_bounds df dateCol otherCols _ hmem).2.2
  have hrowi : ∀ i, i < (midAllKeys df dateCol otherCols).length →
      (fn_insert_missingdates df dateCol otherCols).rows.getD i []
        = (CellValue.date ((midAllKeys df dateCol otherCols).getD i (0, [])).1
            :: ((midAllKeys df dateCol otherCols).getD i (0, [])).2)
          ++ (ffillRows (midDataCols df dateCol otherCols).length
              (midRaw df dateCol otherCols)).getD i [] := by
    intro i hi
    rw [hfn]
    show (((midAllKeys df dateCol otherCols).zip _).map _).getD i [] = _
    rw [getD_map_lt _ _ i ((0, []), []) [] (by simp [hflen]; omega)]
    rw [zip_getD _ _ i (0, []) [] hi (by omega)]
  have hdata : ∀ i, i < (midAllKeys df dateCol otherCols).length →
      ((fn_insert_missingdates df dateCol otherCols).rows.getD i []).drop
          (1 + otherCols.length)
        = (ffillRows (midDataCols df dateCol otherCols).length
            (midRaw df dateCol otherCols)).getD i [] := by
    intro i hi
    rw [hrowi i hi]
    have hkl : (CellValue.date ((midAllKeys df dateCol otherCols).getD i (0, [])).1
        :: ((midAllKeys df dateCol otherCols).getD i (0, [])).2).length
        = 1 + otherCols.length := by
      have hk2 := hkeylen i hi
      simp only [List.length_cons]
      omega
    rw [← hkl]
    exact List.drop_left _ _
  refine ⟨by rw [hfn], ?_, ?_, ?_⟩
  · apply ext_getD _ _ ([] : List CellValue)
    · rw [List.length_map, hrowslen, List.length_map]
    · intro i hi
      rw [List.length_map, hrowslen] at hi
      rw [getD_map_lt _ _ i [] [] (by rw [hrowslen]; exact hi)]
      rw [getD_map_lt _ _ i (0, []) [] hi]
      rw [hrowi i hi]
      have hkl : (CellValue.date ((midAllKeys df dateCol otherCols).getD i (0, [])).1
          :: ((midAllKeys df dateCol otherCols).getD i (0, [])).2).length
          = 1 + otherCols.length := by
        have hk2 := hkeylen i hi
        simp only [List.length_cons]
        omega
      rw [← hkl]
      exact List.take_left _ _
  · intro r hr
    rw [hfn] at hr
    obtain ⟨p, hp, rfl⟩ := List.mem_map.mp hr
    have hpk := (List.mem_zip hp).1
    obtain ⟨h1, h2, _⟩ := mem_midAllKeys_bounds df dateCol otherCols _ hpk
    exact ⟨p.1.1, by simp [List.getD], h1, h2⟩
  · intro i hi
    rw [hrowslen] at hi
    rw [hdata i hi]
    cases i with
    | zero =>
      rw [ffillRows, ffillGo_getD_zero _ _ (by
        intro hcon
        rw [hcon] at hrawlen
        simp at hrawlen
        omega)]
      simp
    | succ j =>
      rw [ffillRows, ffillGo_getD_succ _ _ j (by omega)]
      have hj : j < (midAllKeys df dateCol otherCols).length := by omega
      rw [if_neg (by omega)]
      rw [show j + 1 - 1 = j from rfl]
      rw [hdata j hj]
      rw [ffillRows]

/-- Witness for the amended C8 on the concrete two-group data set. -/
theorem C8_backfill_amended_witness :
    midDateVals exBackfillTable "D" ["G"] ≠ [] ∧
    (fn_insert_missingdates exBackfillTable "D" ["G"]).cols = ["D", "G", "X"] := by
  refine ⟨by decide, ?_⟩
  have h := (C8_backfill_amended exBackfillTable "D" ["G"] (by decide)).1
  rw [h]
  decide

end EInvoices
